import Mathlib

/-!
# Wakefield: a nested Wayland compositor widget

A shallow embedding of `wakefield-compositor.c`, `wakefield-surface.c` and
`wakefield-seat.c`, followed by theorems about the surface state machine
(pending/current state, damage, frame callbacks) and the repaint path.

Conventions of the embedding

* A `struct wl_resource *` is a natural number (the object id); a nullable
  pointer is an `Option`.
* A `struct wl_list` of resources is a `List` read from the list head, so
  `wl_list_insert (head, elm)` is `elm :: list` and
  `wl_list_insert_list (head, other)` is `other ++ list`.
* A `cairo_region_t` is represented by its pixel membership test.
* Events sent to the client are returned as a list, oldest first.
* `g_assert_not_reached ()` aborts the process: functions that can reach it
  return an `Except Abort`.
-/

namespace Wakefield

/-! ## cairo regions -/

/-- The `cairo_rectangle_int_t` of cairo: origin and size in pixels. -/
structure cairo_rectangle_int_t where
  x : Int
  y : Int
  width : Int
  height : Int
  deriving DecidableEq, Repr

/-- Pixel membership of a rectangle: a rectangle without a positive width and
height holds no pixel. -/
def cairo_rectangle_int_t.contains (r : cairo_rectangle_int_t) (px py : Int) : Bool :=
  decide (r.x ≤ px) && decide (px < r.x + r.width) &&
    (decide (r.y ≤ py) && decide (py < r.y + r.height))

/-- The `cairo_region_t` of cairo, a set of pixels, given by its membership test. -/
@[ext]
structure cairo_region_t where
  contains : Int → Int → Bool

/-- The function `cairo_region_create`: the empty region. -/
def cairo_region_create : cairo_region_t :=
  ⟨fun _ _ => false⟩

/-- The function `cairo_region_copy`: a new region with the same pixels. -/
def cairo_region_copy (original : cairo_region_t) : cairo_region_t :=
  ⟨fun px py => original.contains px py⟩

/-- The function `cairo_region_union_rectangle`. -/
def cairo_region_union_rectangle (dst : cairo_region_t)
    (rectangle : cairo_rectangle_int_t) : cairo_region_t :=
  ⟨fun px py => dst.contains px py || rectangle.contains px py⟩

/-- The function `cairo_region_subtract_rectangle`. -/
def cairo_region_subtract_rectangle (dst : cairo_region_t)
    (rectangle : cairo_rectangle_int_t) : cairo_region_t :=
  ⟨fun px py => dst.contains px py && !rectangle.contains px py⟩

/-- The function `cairo_region_intersect_rectangle`. -/
def cairo_region_intersect_rectangle (dst : cairo_region_t)
    (rectangle : cairo_rectangle_int_t) : cairo_region_t :=
  ⟨fun px py => dst.contains px py && rectangle.contains px py⟩

/-! ## Buffers, events, aborts -/

/-- Wire value of `WL_SHM_FORMAT_ARGB8888`. -/
def WL_SHM_FORMAT_ARGB8888 : Nat := 0

/-- Wire value of `WL_SHM_FORMAT_XRGB8888`. -/
def WL_SHM_FORMAT_XRGB8888 : Nat := 1

/-- The part of a `struct wl_shm_buffer` that decides control flow: its
`enum wl_shm_format`. Data, width, height and stride only feed cairo. -/
structure wl_shm_buffer where
  format : Nat
  deriving DecidableEq, Repr

/-- A `wl_buffer` resource: its object id and what `wl_shm_buffer_get` finds
behind it (`none` when the resource is not a shared-memory buffer). -/
structure wl_buffer where
  id : Nat
  shm : Option wl_shm_buffer
  deriving DecidableEq, Repr

/-- The function `wl_shm_buffer_get` of libwayland: `NULL` for a `NULL` resource
and for a resource that is not a shared-memory buffer. -/
def wl_shm_buffer_get (resource : Option wl_buffer) : Option wl_shm_buffer :=
  match resource with
  | none => none
  | some b => b.shm

/-- The ways the process aborts: the `g_assert_not_reached ()` of
`cairo_format_for_wl_shm_format`, that of `draw_surface`, and the dereference
of a `NULL` `priv->surface` in the seat code. -/
inductive Abort where
  | assert_cairo_format
  | assert_draw_surface
  | null_surface
  deriving DecidableEq, Repr

/-- The `cairo_format_t` values the compositor uses. -/
inductive cairo_format_t where
  | CAIRO_FORMAT_ARGB32
  | CAIRO_FORMAT_RGB24
  deriving DecidableEq, Repr

/-- The function `cairo_format_for_wl_shm_format`. -/
def cairo_format_for_wl_shm_format (format : Nat) : Except Abort cairo_format_t :=
  if format = WL_SHM_FORMAT_ARGB8888 then
    .ok .CAIRO_FORMAT_ARGB32
  else if format = WL_SHM_FORMAT_XRGB8888 then
    .ok .CAIRO_FORMAT_RGB24
  else
    .error .assert_cairo_format

/-- Events the compositor sends to the client. -/
inductive wl_event where
  | buffer_release (buffer : wl_buffer)
  | callback_done (callback : Nat) (time : Nat)
  | pointer_button (pointer : Nat) (serial : Nat) (time : Nat) (button : Nat) (state : Nat)
  | pointer_motion (pointer : Nat) (time : Nat) (x : Int) (y : Int)
  | pointer_enter (pointer : Nat) (serial : Nat) (surface : Nat) (x : Int) (y : Int)
  | pointer_leave (pointer : Nat) (serial : Nat) (surface : Nat)
  deriving DecidableEq, Repr

/-- The `struct timeval` filled in by `gettimeofday`. -/
structure timeval where
  tv_sec : Int
  tv_usec : Int
  deriving DecidableEq, Repr

/-- The function `get_time`, given the clock reading: milliseconds, truncated
to a `uint32_t`. -/
def get_time (tv : timeval) : Nat :=
  ((tv.tv_sec * 1000 + Int.tdiv tv.tv_usec 1000) % 4294967296).toNat

/-! ## Data model -/

/-- The `struct WakefieldRegion`. -/
structure WakefieldRegion where
  resource : Nat
  region : cairo_region_t

/-- The `struct WakefieldSurfacePendingState`, used for both the pending and
the current state of a surface. -/
structure WakefieldSurfacePendingState where
  buffer : Option wl_buffer
  scale : Int
  input_region : Option cairo_region_t
  frame_callbacks : List Nat

/-- The `struct WakefieldSurface` (without the back pointer to the compositor). -/
structure WakefieldSurface where
  resource : Nat
  damage : cairo_region_t
  pending : WakefieldSurfacePendingState
  current : WakefieldSurfacePendingState

/-- The `struct WakefieldPointer`. -/
structure WakefieldPointer where
  resource_list : List Nat
  cursor_surface : Option Nat

/-- The `struct WakefieldSeat`. -/
structure WakefieldSeat where
  pointer : WakefieldPointer

/-- The part of libwayland's `struct wl_display` the compositor relies on: the
32-bit serial counter behind `wl_display_next_serial`. -/
structure wl_display where
  serial : Nat

/-- The `struct _WakefieldCompositorPrivate` (without the client socket). -/
structure WakefieldCompositorPrivate where
  display : wl_display
  surface : Option WakefieldSurface
  seat : WakefieldSeat

/-! ## Region requests (`wakefield-surface.c`) -/

/-- The handler `wl_region_add`. -/
def wl_region_add (region : WakefieldRegion) (x y width height : Int) : WakefieldRegion :=
  let rectangle : cairo_rectangle_int_t := { x := x, y := y, width := width, height := height }
  { region with region := cairo_region_union_rectangle region.region rectangle }

/-- The handler `wl_region_subtract`. -/
def wl_region_subtract (region : WakefieldRegion) (x y width height : Int) : WakefieldRegion :=
  let rectangle : cairo_rectangle_int_t := { x := x, y := y, width := width, height := height }
  { region with region := cairo_region_subtract_rectangle region.region rectangle }

/-- The handler `wl_compositor_create_region`: a region resource `id` with an
empty rectangle set. -/
def wl_compositor_create_region (id : Nat) : WakefieldRegion :=
  { resource := id, region := cairo_region_create }

/-! ## Surface requests (`wakefield-surface.c`) -/

/-- The handler `wl_surface_attach`: `dx` and `dy` are ignored. -/
def wl_surface_attach (surface : WakefieldSurface) (buffer_resource : Option wl_buffer)
    (_dx _dy : Int) : WakefieldSurface :=
  { surface with pending := { surface.pending with buffer := buffer_resource } }

/-- The handler `wl_surface_damage`: the rectangle goes straight into
`surface->damage`. -/
def wl_surface_damage (surface : WakefieldSurface) (x y width height : Int) :
    WakefieldSurface :=
  let rectangle : cairo_rectangle_int_t := { x := x, y := y, width := width, height := height }
  { surface with damage := cairo_region_union_rectangle surface.damage rectangle }

/-- The handler `wl_surface_frame`: the new callback resource is linked right
after the head of `pending.frame_callbacks`. -/
def wl_surface_frame (surface : WakefieldSurface) (callback_id : Nat) : WakefieldSurface :=
  { surface with
    pending := { surface.pending with
      frame_callbacks := callback_id :: surface.pending.frame_callbacks } }

/-- The handler `wl_surface_set_opaque_region`: an empty body. -/
def wl_surface_set_opaque_region (surface : WakefieldSurface)
    (_region_resource : Option WakefieldRegion) : WakefieldSurface :=
  surface

/-- The handler `wl_surface_set_input_region`: the old pending region is
dropped, and a copy of the given region, if any, takes its place. -/
def wl_surface_set_input_region (surface : WakefieldSurface)
    (region_resource : Option WakefieldRegion) : WakefieldSurface :=
  let cleared : WakefieldSurface :=
    { surface with pending := { surface.pending with input_region := none } }
  match region_resource with
  | some region =>
    { cleared with
      pending := { cleared.pending with input_region := some (cairo_region_copy region.region) } }
  | none => cleared

/-- The handler `wl_surface_commit`. The second component is the region handed
to `gtk_widget_queue_draw_region` (the damage as it was before being emptied). -/
def wl_surface_commit (surface : WakefieldSurface) : WakefieldSurface × cairo_region_t :=
  let s1 : WakefieldSurface :=
    match surface.pending.buffer with
    | some b => { surface with current := { surface.current with buffer := some b } }
    | none => surface
  let s2 : WakefieldSurface :=
    if s1.pending.scale > 0 then
      { s1 with current := { s1.current with scale := s1.pending.scale } }
    else s1
  let s3 : WakefieldSurface :=
    { s2 with
      current := { s2.current with
        frame_callbacks := s2.pending.frame_callbacks ++ s2.current.frame_callbacks },
      pending := { s2.pending with frame_callbacks := [] } }
  let queued : cairo_region_t := s3.damage
  let nothing : cairo_rectangle_int_t := { x := 0, y := 0, width := 0, height := 0 }
  let s4 : WakefieldSurface :=
    { s3 with damage := cairo_region_intersect_rectangle s3.damage nothing }
  let s5 : WakefieldSurface :=
    { s4 with pending := { s4.pending with input_region := none } }
  let s6 : WakefieldSurface :=
    { s5 with pending := { s5.pending with buffer := none } }
  ({ s6 with pending := { s6.pending with scale := 0 } }, queued)

/-- The handler `wl_surface_set_buffer_transform`: an empty body. -/
def wl_surface_set_buffer_transform (surface : WakefieldSurface) (_transform : Int) :
    WakefieldSurface :=
  surface

/-- The handler `wl_surface_set_buffer_scale`: the value is stored unchecked. -/
def wl_surface_set_buffer_scale (surface : WakefieldSurface) (scale : Int) :
    WakefieldSurface :=
  { surface with pending := { surface.pending with scale := scale } }

/-- The function `destroy_pending_state`. -/
def destroy_pending_state (state : WakefieldSurfacePendingState) :
    WakefieldSurfacePendingState :=
  { state with input_region := none }

/-- The destructor `wl_surface_destructor`: the surface is let go and the
compositor's active surface is cleared. -/
def wl_surface_destructor (priv : WakefieldCompositorPrivate) : WakefieldCompositorPrivate :=
  { priv with surface := none }

/-- The handler `wl_compositor_create_surface`: only the first surface is
created; with an active surface the request returns at once. -/
def wl_compositor_create_surface (priv : WakefieldCompositorPrivate) (id : Nat) :
    WakefieldCompositorPrivate :=
  match priv.surface with
  | some _ => priv
  | none =>
    let surface : WakefieldSurface :=
      { resource := id
        damage := cairo_region_create
        pending := { buffer := none, scale := 0, input_region := none, frame_callbacks := [] }
        current := { buffer := none, scale := 1, input_region := none, frame_callbacks := [] } }
    { priv with surface := some surface }

/-- The requests of `wl_surface` that have a handler in `surface_interface`
(all but `destroy`), with their arguments. -/
inductive SurfaceRequest where
  | attach (buffer : Option wl_buffer) (dx dy : Int)
  | damage (x y width height : Int)
  | frame (callback : Nat)
  | set_opaque_region (region : Option WakefieldRegion)
  | set_input_region (region : Option WakefieldRegion)
  | commit
  | set_buffer_transform (transform : Int)
  | set_buffer_scale (scale : Int)

/-- The table `surface_interface`: the handler run for each request. -/
def surface_interface (surface : WakefieldSurface) : SurfaceRequest → WakefieldSurface
  | .attach buffer dx dy => wl_surface_attach surface buffer dx dy
  | .damage x y width height => wl_surface_damage surface x y width height
  | .frame callback => wl_surface_frame surface callback
  | .set_opaque_region region => wl_surface_set_opaque_region surface region
  | .set_input_region region => wl_surface_set_input_region surface region
  | .commit => (wl_surface_commit surface).1
  | .set_buffer_transform transform => wl_surface_set_buffer_transform surface transform
  | .set_buffer_scale scale => wl_surface_set_buffer_scale surface scale

/-- A sequence of requests handled in arrival order. -/
def surface_requests (surface : WakefieldSurface) (requests : List SurfaceRequest) :
    WakefieldSurface :=
  requests.foldl surface_interface surface

/-! ## Repaint (`wakefield-compositor.c`) -/

/-- The function `draw_surface`, given the clock reading `get_time` sees. The
cairo calls only put pixels on the host's drawing context; what is kept is the
control flow, the events sent and the surface afterwards. -/
def draw_surface (surface : WakefieldSurface) (tv : timeval) :
    Except Abort (WakefieldSurface × List wl_event) :=
  match wl_shm_buffer_get surface.current.buffer, surface.current.buffer with
  | some shm_buffer, some buffer =>
    match cairo_format_for_wl_shm_format shm_buffer.format with
    | .error e => .error e
    | .ok _ =>
      let time := get_time tv
      .ok ({ surface with current := { surface.current with frame_callbacks := [] } },
        wl_event.buffer_release buffer ::
          surface.current.frame_callbacks.map (fun cr => wl_event.callback_done cr time))
  | _, _ => .error .assert_draw_surface

/-- The function `wakefield_compositor_draw`: the `draw` handler of the widget. -/
def wakefield_compositor_draw (priv : WakefieldCompositorPrivate) (tv : timeval) :
    Except Abort (WakefieldCompositorPrivate × List wl_event) :=
  match priv.surface with
  | some surface =>
    match draw_surface surface tv with
    | .error e => .error e
    | .ok (surface1, events) => .ok ({ priv with surface := some surface1 }, events)
  | none => .ok (priv, [])

/-- The destructor `unbind_resource`: `wl_list_remove` takes the resource out of
the list it is linked in. -/
def unbind_resource (list : List Nat) (resource : Nat) : List Nat :=
  list.erase resource

/-! ## Seat and pointer (`wakefield-seat.c`) -/

/-- The function `wl_display_next_serial` of libwayland: the 32-bit counter is
incremented and its new value returned. -/
def wl_display_next_serial (display : wl_display) : wl_display × Nat :=
  let serial := (display.serial + 1) % 4294967296
  ({ display with serial := serial }, serial)

/-- A value brought into the range of a 32-bit `int` by two's complement
wrap-around. -/
def int32_wrap (v : Int) : Int :=
  (v + 2147483648) % 4294967296 - 2147483648

/-- The function `wl_fixed_from_int` of libwayland: 24.8 fixed point, the
product `i * 256` taken in a 32-bit `int` (it wraps for `|i| >= 2^23`). -/
def wl_fixed_from_int (i : Int) : Int :=
  int32_wrap (i * 256)

/-- The handler `seat_get_pointer`: the new pointer resource is linked right
after the head of the seat's resource list. -/
def seat_get_pointer (priv : WakefieldCompositorPrivate) (id : Nat) :
    WakefieldCompositorPrivate :=
  { priv with
    seat := { priv.seat with
      pointer := { priv.seat.pointer with
        resource_list := id :: priv.seat.pointer.resource_list } } }

/-- The `GdkEventType` values a `GdkEventButton` can have; `broadcast_button`
tells `GDK_BUTTON_PRESS` apart from the others. -/
inductive GdkEventType where
  | GDK_BUTTON_PRESS
  | GDK_2BUTTON_PRESS
  | GDK_3BUTTON_PRESS
  | GDK_BUTTON_RELEASE
  deriving DecidableEq, Repr

/-- The fields of a `GdkEventButton` the compositor reads. -/
structure GdkEventButton where
  type : GdkEventType
  time : Nat
  button : Nat
  deriving DecidableEq, Repr

/-- The fields of a `GdkEventMotion` the compositor reads; `x` and `y` are the
coordinates as converted to `int` for `wl_fixed_from_int`. -/
structure GdkEventMotion where
  time : Nat
  x : Int
  y : Int
  deriving DecidableEq, Repr

/-- The fields of a `GdkEventCrossing` the compositor reads. -/
structure GdkEventCrossing where
  x : Int
  y : Int
  deriving DecidableEq, Repr

/-- The function `broadcast_button`. -/
def broadcast_button (priv : WakefieldCompositorPrivate) (event : GdkEventButton) :
    WakefieldCompositorPrivate × List wl_event :=
  let next := wl_display_next_serial priv.display
  let serial := next.2
  let button := event.button
  ({ priv with display := next.1 },
    priv.seat.pointer.resource_list.map (fun resource =>
      wl_event.pointer_button resource serial event.time button
        (if event.type = GdkEventType.GDK_BUTTON_PRESS then 1 else 0)))

/-- The handler `wakefield_compositor_button_press_event`. -/
def wakefield_compositor_button_press_event (priv : WakefieldCompositorPrivate)
    (event : GdkEventButton) : WakefieldCompositorPrivate × List wl_event :=
  broadcast_button priv event

/-- The handler `wakefield_compositor_button_release_event`. -/
def wakefield_compositor_button_release_event (priv : WakefieldCompositorPrivate)
    (event : GdkEventButton) : WakefieldCompositorPrivate × List wl_event :=
  broadcast_button priv event

/-- The handler `wakefield_compositor_motion_notify_event`. -/
def wakefield_compositor_motion_notify_event (priv : WakefieldCompositorPrivate)
    (event : GdkEventMotion) : WakefieldCompositorPrivate × List wl_event :=
  (priv,
    priv.seat.pointer.resource_list.map (fun resource =>
      wl_event.pointer_motion resource event.time
        (wl_fixed_from_int event.x) (wl_fixed_from_int event.y)))

/-- The handler `wakefield_compositor_enter_notify_event`: the serial is taken
first; `priv->surface->resource` is read once per pointer resource, which
dereferences `NULL` when there is a pointer but no surface. -/
def wakefield_compositor_enter_notify_event (priv : WakefieldCompositorPrivate)
    (event : GdkEventCrossing) : Except Abort (WakefieldCompositorPrivate × List wl_event) :=
  let next := wl_display_next_serial priv.display
  let serial := next.2
  match priv.seat.pointer.resource_list, priv.surface with
  | [], _ => .ok ({ priv with display := next.1 }, [])
  | _ :: _, none => .error .null_surface
  | resources, some surface =>
    .ok ({ priv with display := next.1 },
      resources.map (fun resource =>
        wl_event.pointer_enter resource serial surface.resource
          (wl_fixed_from_int event.x) (wl_fixed_from_int event.y)))

/-- The handler `wakefield_compositor_leave_notify_event`, with the same read
of `priv->surface->resource` as the enter handler. -/
def wakefield_compositor_leave_notify_event (priv : WakefieldCompositorPrivate)
    (_event : GdkEventCrossing) : Except Abort (WakefieldCompositorPrivate × List wl_event) :=
  let next := wl_display_next_serial priv.display
  let serial := next.2
  match priv.seat.pointer.resource_list, priv.surface with
  | [], _ => .ok ({ priv with display := next.1 }, [])
  | _ :: _, none => .error .null_surface
  | resources, some surface =>
    .ok ({ priv with display := next.1 },
      resources.map (fun resource => wl_event.pointer_leave resource serial surface.resource))

/-- The function `wakefield_pointer_init`. -/
def wakefield_pointer_init : WakefieldPointer :=
  { resource_list := [], cursor_surface := none }

/-- The state after `wakefield_compositor_init`: a fresh display, no surface,
no pointer resource. -/
def wakefield_compositor_init : WakefieldCompositorPrivate :=
  { display := { serial := 0 }, surface := none, seat := { pointer := wakefield_pointer_init } }

/-! ## One event at a time

The compositor handles one client request or one host callback to completion
before the next. A request to the surface resource acts on the structure that
`priv->surface` points to. -/

/-- What the main loop hands to the compositor: a request of the client to the
active surface, or a repaint of the widget at a given clock reading. -/
inductive Input where
  | request (r : SurfaceRequest)
  | draw (tv : timeval)

/-- A request to the resource of the active surface. -/
def client_request (priv : WakefieldCompositorPrivate) (r : SurfaceRequest) :
    WakefieldCompositorPrivate :=
  match priv.surface with
  | some surface => { priv with surface := some (surface_interface surface r) }
  | none => priv

/-- One input handled to completion, with the events it sends. -/
def compositor_step (priv : WakefieldCompositorPrivate) :
    Input → Except Abort (WakefieldCompositorPrivate × List wl_event)
  | .request r => .ok (client_request priv r, [])
  | .draw tv => wakefield_compositor_draw priv tv

/-- A sequence of inputs handled in order; the events are those of all steps,
oldest first. An abort ends the run. -/
def compositor_run (priv : WakefieldCompositorPrivate) :
    List Input → Except Abort (WakefieldCompositorPrivate × List wl_event)
  | [] => .ok (priv, [])
  | i :: rest =>
    match compositor_step priv i with
    | .error e => .error e
    | .ok (priv1, events1) =>
      match compositor_run priv1 rest with
      | .error e => .error e
      | .ok (priv2, events2) => .ok (priv2, events1 ++ events2)

/-- Number of `done` events sent to a callback resource. -/
def done_count (callback : Nat) (events : List wl_event) : Nat :=
  (events.filter (fun e =>
    match e with
    | .callback_done c _ => decide (c = callback)
    | _ => false)).length

/-! ## Host input events and pointer requests, one at a time -/

/-- The request `wl_pointer.release`: `resource_release` destroys the pointer
resource, whose destructor `unbind_resource` unlinks it from the seat's list. -/
def pointer_release (priv : WakefieldCompositorPrivate) (id : Nat) :
    WakefieldCompositorPrivate :=
  { priv with
    seat := { priv.seat with
      pointer := { priv.seat.pointer with
        resource_list := unbind_resource priv.seat.pointer.resource_list id } } }

/-- The two requests that change the set of pointer resources. -/
inductive PointerRequest where
  | get_pointer (id : Nat)
  | destroy (id : Nat)
  deriving DecidableEq, Repr

/-- One pointer request handled. -/
def pointer_request (priv : WakefieldCompositorPrivate) :
    PointerRequest → WakefieldCompositorPrivate
  | .get_pointer id => seat_get_pointer priv id
  | .destroy id => pointer_release priv id

/-- A sequence of pointer requests handled in arrival order. -/
def pointer_requests (priv : WakefieldCompositorPrivate) (requests : List PointerRequest) :
    WakefieldCompositorPrivate :=
  requests.foldl pointer_request priv

/-- The live `wl_surface` resources: the one made by `wl_resource_create` in
`wl_compositor_create_surface` and kept in `surface->resource`, if any. -/
def surface_resources (priv : WakefieldCompositorPrivate) : List Nat :=
  match priv.surface with
  | some surface => [surface.resource]
  | none => []

/-! ## Regions as objects in memory

The handlers above treat a `cairo_region_t *` as the set it points to. To see
that the input region of a surface shares nothing with the region resource it
was taken from, the region handlers are given once more with explicit
addresses: a `cairo_region_t *` is an address in a table of region objects. -/

/-- The region objects of cairo by address: entry `a` is the object at address
`a`, or `none` once it is destroyed. A new object gets the next address. -/
structure cairo_heap where
  cells : List (Option cairo_region_t)

/-- The region object at an address, `none` for a destroyed or unused one. -/
def cairo_heap.read (heap : cairo_heap) (address : Nat) : Option cairo_region_t :=
  (heap.cells.get? address).join

namespace Heap

/-- The `struct WakefieldRegion`, its `region` field an address. -/
structure WakefieldRegion where
  resource : Nat
  region : Nat
  deriving DecidableEq, Repr

/-- The function `cairo_region_destroy`: the object at the address is gone. -/
def cairo_region_destroy (heap : cairo_heap) (region : Nat) : cairo_heap :=
  { cells := heap.cells.set region none }

/-- The function `cairo_region_copy`: a new object with the pixels of the
original, at a new address (no object when the original is not live). -/
def cairo_region_copy (heap : cairo_heap) (original : Nat) : cairo_heap × Option Nat :=
  match heap.read original with
  | some value =>
    ({ cells := heap.cells ++ [some (Wakefield.cairo_region_copy value)] },
      some heap.cells.length)
  | none => (heap, none)

/-- The function `cairo_region_union_rectangle` on the object at `dst`. -/
def cairo_region_union_rectangle (heap : cairo_heap) (dst : Nat)
    (rectangle : cairo_rectangle_int_t) : cairo_heap :=
  match heap.read dst with
  | some value =>
    { cells := heap.cells.set dst (some (Wakefield.cairo_region_union_rectangle value rectangle)) }
  | none => heap

/-- The function `cairo_region_subtract_rectangle` on the object at `dst`. -/
def cairo_region_subtract_rectangle (heap : cairo_heap) (dst : Nat)
    (rectangle : cairo_rectangle_int_t) : cairo_heap :=
  match heap.read dst with
  | some value =>
    { cells :=
        heap.cells.set dst (some (Wakefield.cairo_region_subtract_rectangle value rectangle)) }
  | none => heap

/-- The handler `wl_region_add`. -/
def wl_region_add (heap : cairo_heap) (region : WakefieldRegion) (x y width height : Int) :
    cairo_heap :=
  let rectangle : cairo_rectangle_int_t := { x := x, y := y, width := width, height := height }
  cairo_region_union_rectangle heap region.region rectangle

/-- The handler `wl_region_subtract`. -/
def wl_region_subtract (heap : cairo_heap) (region : WakefieldRegion)
    (x y width height : Int) : cairo_heap :=
  let rectangle : cairo_rectangle_int_t := { x := x, y := y, width := width, height := height }
  cairo_region_subtract_rectangle heap region.region rectangle

/-- The destructor `wl_region_destructor`: the region object is destroyed (and
the structure freed). -/
def wl_region_destructor (heap : cairo_heap) (region : WakefieldRegion) : cairo_heap :=
  cairo_region_destroy heap region.region

/-- The handler `wl_surface_set_input_region`, on the field
`pending.input_region` of the surface: `g_clear_pointer` destroys the object
the field points to, then the field gets a copy of the region of the given
resource, or stays `NULL`. -/
def wl_surface_set_input_region (heap : cairo_heap) (pending_input_region : Option Nat)
    (region_resource : Option WakefieldRegion) : cairo_heap × Option Nat :=
  let cleared : cairo_heap :=
    match pending_input_region with
    | some p => cairo_region_destroy heap p
    | none => heap
  match region_resource with
  | some region => cairo_region_copy cleared region.region
  | none => (cleared, none)

/-- The requests of `wl_region`, as in `region_interface`. -/
inductive RegionRequest where
  | destroy
  | add (x y width height : Int)
  | subtract (x y width height : Int)
  deriving DecidableEq, Repr

/-- The table `region_interface` for a region resource: `destroy` is
`resource_release`, which runs the destructor and ends the resource. A request
to a resource that no longer exists is not dispatched. -/
def region_interface (state : cairo_heap × Option WakefieldRegion) :
    RegionRequest → cairo_heap × Option WakefieldRegion
  | .destroy =>
    match state.2 with
    | some region => (wl_region_destructor state.1 region, none)
    | none => state
  | .add x y width height =>
    match state.2 with
    | some region => (wl_region_add state.1 region x y width height, some region)
    | none => state
  | .subtract x y width height =>
    match state.2 with
    | some region => (wl_region_subtract state.1 region x y width height, some region)
    | none => state

/-- A sequence of requests to one region resource, in arrival order. -/
def region_requests (heap : cairo_heap) (region : Option WakefieldRegion)
    (requests : List RegionRequest) : cairo_heap × Option WakefieldRegion :=
  requests.foldl region_interface (heap, region)

end Heap

/-! ## Vocabulary of the statements -/

/-- The requests that only stage state or damage: attach, damage, frame and
set_buffer_scale. -/
def SurfaceRequest.is_staging : SurfaceRequest → Bool
  | .attach _ _ _ => true
  | .damage _ _ _ _ => true
  | .frame _ => true
  | .set_buffer_scale _ => true
  | _ => false

/-- The buffer reference passed to the last attach of a sequence of requests,
`none` when the sequence has no attach. -/
def last_attach : List SurfaceRequest → Option (Option wl_buffer)
  | [] => none
  | r :: rest =>
    match last_attach rest with
    | some b => some b
    | none =>
      match r with
      | .attach b _ _ => some b
      | _ => none

/-- A shared-memory buffer in the ARGB8888 format. -/
def sample_buffer : wl_buffer :=
  { id := 7, shm := some { format := WL_SHM_FORMAT_ARGB8888 } }

/-- A second shared-memory buffer, in the XRGB8888 format. -/
def sample_buffer2 : wl_buffer :=
  { id := 8, shm := some { format := WL_SHM_FORMAT_XRGB8888 } }

/-- A surface right after a commit that made `sample_buffer` current. -/
def sample_surface : WakefieldSurface :=
  { resource := 3
    damage := cairo_region_create
    pending := { buffer := none, scale := 0, input_region := none, frame_callbacks := [] }
    current := { buffer := some sample_buffer, scale := 1, input_region := none,
                 frame_callbacks := [] } }

/-- The formats `cairo_format_for_wl_shm_format` has a case for, which are the
formats a display set up by `wl_display_init_shm` alone accepts. -/
def supported_format (format : Nat) : Prop :=
  format = WL_SHM_FORMAT_ARGB8888 ∨ format = WL_SHM_FORMAT_XRGB8888

instance (format : Nat) : Decidable (supported_format format) := by
  unfold supported_format; infer_instance

/-- The buffers a client of this compositor can refer to. The only global that
makes `wl_buffer` resources is `wl_shm`, which `wakefield_compositor_init` sets up
with `wl_display_init_shm` alone (no format is added): every buffer is a
shared-memory buffer in the ARGB8888 or XRGB8888 format. -/
def receivable_buffer (b : wl_buffer) : Prop :=
  ∃ shm, wl_shm_buffer_get (some b) = some shm ∧ supported_format shm.format

/-- The region made by `create_region`, then `add (0, 0, 4, 4)`. -/
def sample_region : WakefieldRegion :=
  wl_region_add (wl_compositor_create_region 5) 0 0 4 4

/-- Whether a request is a commit. -/
def SurfaceRequest.is_commit : SurfaceRequest → Bool
  | .commit => true
  | _ => false

/-- Whether a request is a damage or a commit. -/
def SurfaceRequest.is_damage_or_commit : SurfaceRequest → Bool
  | .damage _ _ _ _ => true
  | .commit => true
  | _ => false

/-- The rectangles of the damage requests that come after the last commit of a
sequence of requests (all of them when the sequence has no commit). -/
def rects_since_commit : List SurfaceRequest → List cairo_rectangle_int_t
  | [] => []
  | r :: rest =>
    if rest.any SurfaceRequest.is_commit then rects_since_commit rest
    else
      match r with
      | .damage x y width height =>
        { x := x, y := y, width := width, height := height } :: rects_since_commit rest
      | _ => rects_since_commit rest

/-- Whether an input is a commit request. -/
def Input.is_commit : Input → Bool
  | .request .commit => true
  | _ => false

/-- Whether an input is a commit request or a repaint. -/
def Input.is_commit_or_draw : Input → Bool
  | .request .commit => true
  | .draw _ => true
  | _ => false

/-- Whether a request is a frame or a commit. -/
def SurfaceRequest.is_frame_or_commit : SurfaceRequest → Bool
  | .frame _ => true
  | .commit => true
  | _ => false

/-- The callbacks registered by the frame requests of a sequence, in the order
of the requests. -/
def registered_callbacks : List SurfaceRequest → List Nat
  | [] => []
  | .frame callback :: rest => callback :: registered_callbacks rest
  | _ :: rest => registered_callbacks rest

/-- The callbacks of the done events of a list of events, in sending order. -/
def done_order (events : List wl_event) : List Nat :=
  events.filterMap (fun e =>
    match e with
    | .callback_done c _ => some c
    | _ => none)

/-- The serial a message carries, if its kind carries one. -/
def event_serial : wl_event → Option Nat
  | .pointer_button _ serial _ _ _ => some serial
  | .pointer_enter _ serial _ _ _ => some serial
  | .pointer_leave _ serial _ => some serial
  | _ => none

/-- The serials carried by a list of messages. -/
def serials_of (messages : List wl_event) : List Nat :=
  messages.filterMap event_serial

/-- The pointer resource a pointer message is sent to. -/
def event_pointer : wl_event → Option Nat
  | .pointer_button pointer _ _ _ _ => some pointer
  | .pointer_motion pointer _ _ _ => some pointer
  | .pointer_enter pointer _ _ _ _ => some pointer
  | .pointer_leave pointer _ _ => some pointer
  | _ => none

/-- Number of messages of a list sent to a given pointer resource. -/
def pointer_message_count (pointer : Nat) (messages : List wl_event) : Nat :=
  (messages.filter (fun e => decide (event_pointer e = some pointer))).length

/-- The set of live pointer resources after one request: `get_pointer` makes
the new id live, `destroy` ends the life of that id. -/
def PointerRequest.live_after (live : Nat → Bool) : PointerRequest → Nat → Bool
  | .get_pointer id => fun p => decide (p = id) || live p
  | .destroy id => fun p => !decide (p = id) && live p

/-- The set of live pointer resources after a sequence of requests. -/
def live_pointers (live : Nat → Bool) (requests : List PointerRequest) : Nat → Bool :=
  requests.foldl PointerRequest.live_after live

/-- Whether every `get_pointer` of a sequence uses an id that is not the id of
a pointer live at that time, as the object map of the connection demands. -/
def fresh_ids (live : Nat → Bool) : List PointerRequest → Bool
  | [] => true
  | .get_pointer id :: rest =>
    !live id && fresh_ids (PointerRequest.live_after live (.get_pointer id)) rest
  | .destroy id :: rest => fresh_ids (PointerRequest.live_after live (.destroy id)) rest

/-- A compositor with `sample_surface` active, two pointer resources and the
serial counter two steps before its largest value. -/
def sample_compositor : WakefieldCompositorPrivate :=
  { display := { serial := 4294967294 }
    surface := some sample_surface
    seat := { pointer := { resource_list := [21, 20], cursor_surface := none } } }

/-- A button press of button 1 at time 100. -/
def sample_press : GdkEventButton :=
  { type := GdkEventType.GDK_BUTTON_PRESS, time := 100, button := 1 }

/-- The milliseconds of a clock reading before the truncation to 32 bits. -/
def timeval.millis (tv : timeval) : Int :=
  tv.tv_sec * 1000 + Int.tdiv tv.tv_usec 1000

/-- A clock reading as `gettimeofday` gives it: the microseconds are below one
second. -/
def timeval.well_formed (tv : timeval) : Prop :=
  0 ≤ tv.tv_usec ∧ tv.tv_usec < 1000000

/-- The reading `a` is not later than the reading `b`. -/
def timeval.not_later (a b : timeval) : Prop :=
  a.tv_sec < b.tv_sec ∨ (a.tv_sec = b.tv_sec ∧ a.tv_usec ≤ b.tv_usec)

/-- The timestamps of the done events of a list of events, in sending order. -/
def done_times (events : List wl_event) : List Nat :=
  events.filterMap (fun e =>
    match e with
    | .callback_done _ time => some time
    | _ => none)

/-! ## Theorems -/

/-! ### Basic facts about sequences of requests -/

theorem surface_requests_cons (s : WakefieldSurface) (r : SurfaceRequest)
    (rest : List SurfaceRequest) :
    surface_requests s (r :: rest) = surface_requests (surface_interface s r) rest := rfl

theorem surface_requests_append (s : WakefieldSurface) (xs ys : List SurfaceRequest) :
    surface_requests s (xs ++ ys) = surface_requests (surface_requests s xs) ys := by
  simp [surface_requests, List.foldl_append]

theorem staging_current (reqs : List SurfaceRequest) :
    ∀ s : WakefieldSurface, (∀ r ∈ reqs, r.is_staging = true) →
      (surface_requests s reqs).current = s.current := by
  induction reqs with
  | nil => intro s _; rfl
  | cons r rest ih =>
    intro s h
    rw [surface_requests_cons, ih _ (fun q hq => h q (List.mem_cons_of_mem _ hq))]
    have hr := h r (List.mem_cons_self _ _)
    cases r <;> simp [SurfaceRequest.is_staging] at hr <;> rfl

theorem staging_pending_buffer (reqs : List SurfaceRequest) :
    ∀ s : WakefieldSurface, (∀ r ∈ reqs, r.is_staging = true) →
      (surface_requests s reqs).pending.buffer =
        (match last_attach reqs with
         | some b => b
         | none => s.pending.buffer) := by
  induction reqs with
  | nil => intro s _; rfl
  | cons r rest ih =>
    intro s h
    rw [surface_requests_cons, ih _ (fun q hq => h q (List.mem_cons_of_mem _ hq))]
    have hr := h r (List.mem_cons_self _ _)
    cases hl : last_attach rest with
    | some b => simp [last_attach, hl]
    | none =>
      cases r <;> simp [SurfaceRequest.is_staging] at hr <;>
        simp [last_attach, hl, surface_interface, wl_surface_attach, wl_surface_damage,
          wl_surface_frame, wl_surface_set_buffer_scale]

theorem commit_current_buffer_eq (s : WakefieldSurface) :
    (wl_surface_commit s).1.current.buffer =
      (match s.pending.buffer with
       | some b => some b
       | none => s.current.buffer) := by
  unfold wl_surface_commit
  cases h : s.pending.buffer <;> simp <;> split <;> simp

/-! ### C1: the buffer made current by a commit -/

/-- C1, as amended: after any sequence of attach, damage, frame and
set_buffer_scale requests followed by one commit, `current.buffer` is the
buffer passed to the last attach when that reference is not null; it is the
`current.buffer` from before the sequence when the last attach passed null;
and when the sequence has no attach it is the buffer that was already pending
before the sequence, or, with nothing pending, the `current.buffer` from
before the sequence. -/
theorem C1_commit_takes_last_attached_buffer (s : WakefieldSurface)
    (reqs : List SurfaceRequest) (h : ∀ r ∈ reqs, r.is_staging = true) :
    (∀ b, last_attach reqs = some (some b) →
      (surface_requests s (reqs ++ [.commit])).current.buffer = some b) ∧
    (last_attach reqs = some none →
      (surface_requests s (reqs ++ [.commit])).current.buffer = s.current.buffer) ∧
    (last_attach reqs = none → ∀ b, s.pending.buffer = some b →
      (surface_requests s (reqs ++ [.commit])).current.buffer = some b) ∧
    (last_attach reqs = none → s.pending.buffer = none →
      (surface_requests s (reqs ++ [.commit])).current.buffer = s.current.buffer) := by
  have key : (surface_requests s (reqs ++ [.commit])).current.buffer =
      (match (surface_requests s reqs).pending.buffer with
       | some b => some b
       | none => (surface_requests s reqs).current.buffer) := by
    rw [surface_requests_append]
    exact commit_current_buffer_eq _
  rw [staging_pending_buffer reqs s h, staging_current reqs s h] at key
  refine ⟨?_, ?_, ?_, ?_⟩
  · intro b hb; rw [key, hb]
  · intro hb; rw [key, hb]
  · intro hb b hp; rw [key, hb]; simp [hp]
  · intro hb hp; rw [key, hb]; simp [hp]

/-- Witness of C1: attaching `sample_buffer2` (with a damage request after it)
and committing makes it the current buffer of `sample_surface`. -/
theorem C1_commit_takes_last_attached_buffer_witness :
    (∀ r ∈ [SurfaceRequest.attach (some sample_buffer2) 0 0, SurfaceRequest.damage 0 0 4 4],
      r.is_staging = true) ∧
    (surface_requests sample_surface
      ([SurfaceRequest.attach (some sample_buffer2) 0 0, SurfaceRequest.damage 0 0 4 4] ++
        [SurfaceRequest.commit])).current.buffer = some sample_buffer2 :=
  ⟨by simp [SurfaceRequest.is_staging],
   (C1_commit_takes_last_attached_buffer sample_surface
      [SurfaceRequest.attach (some sample_buffer2) 0 0, SurfaceRequest.damage 0 0 4 4]
      (by simp [SurfaceRequest.is_staging])).1 sample_buffer2 rfl⟩

/-- C1 as stated fails: on `sample_surface` the last attach passes a null
buffer, yet after the commit `current.buffer` is still `sample_buffer`, not
null; and with `sample_buffer2` already pending and no attach in the sequence,
the commit replaces the current buffer instead of keeping it. -/
theorem C1_counterexample :
    (last_attach [SurfaceRequest.attach none 0 0] = some none ∧
      (surface_requests sample_surface
        ([SurfaceRequest.attach none 0 0] ++ [SurfaceRequest.commit])).current.buffer
        = some sample_buffer ∧
      some sample_buffer ≠ (none : Option wl_buffer)) ∧
    (last_attach ([] : List SurfaceRequest) = none ∧
      (surface_requests (wl_surface_attach sample_surface (some sample_buffer2) 0 0)
        ([] ++ [SurfaceRequest.commit])).current.buffer = some sample_buffer2 ∧
      (wl_surface_attach sample_surface (some sample_buffer2) 0 0).current.buffer
        = some sample_buffer ∧
      some sample_buffer2 ≠ some sample_buffer) := by
  refine ⟨⟨rfl, rfl, by decide⟩, rfl, rfl, rfl, by decide⟩

/-! ### The commit, field by field -/

theorem commit_eq (s : WakefieldSurface) :
    (wl_surface_commit s).1 =
      { resource := s.resource
        damage := cairo_region_intersect_rectangle s.damage
          { x := 0, y := 0, width := 0, height := 0 }
        pending := { buffer := none, scale := 0, input_region := none, frame_callbacks := [] }
        current :=
          { buffer := (match s.pending.buffer with
              | some b => some b
              | none => s.current.buffer)
            scale := if s.pending.scale > 0 then s.pending.scale else s.current.scale
            input_region := s.current.input_region
            frame_callbacks := s.pending.frame_callbacks ++ s.current.frame_callbacks } } := by
  unfold wl_surface_commit
  cases hb : s.pending.buffer <;> by_cases hs : s.pending.scale > 0 <;> simp [hs]

theorem intersect_nothing_contains (d : cairo_region_t) (px py : Int) :
    (cairo_region_intersect_rectangle d { x := 0, y := 0, width := 0, height := 0 }).contains
      px py = false := by
  simp only [cairo_region_intersect_rectangle, cairo_rectangle_int_t.contains]
  by_cases h1 : (0 : Int) ≤ px <;> by_cases h2 : px < 0 + 0 <;> simp [h1, h2]

theorem commit_commit (s : WakefieldSurface) :
    (wl_surface_commit (wl_surface_commit s).1).1 = (wl_surface_commit s).1 := by
  rw [commit_eq (wl_surface_commit s).1, commit_eq s]
  simp only [List.nil_append, gt_iff_lt, lt_self_iff_false, if_false]
  congr 1
  ext px py
  rw [intersect_nothing_contains, intersect_nothing_contains]

/-! ### C3: what a repaint sends -/

theorem draw_surface_ok (s : WakefieldSurface) (b : wl_buffer) (shm : wl_shm_buffer)
    (tv : timeval) (hb : s.current.buffer = some b) (hshm : b.shm = some shm)
    (hfmt : supported_format shm.format) :
    draw_surface s tv =
      .ok ({ s with current := { s.current with frame_callbacks := [] } },
        wl_event.buffer_release b ::
          s.current.frame_callbacks.map (fun cr => wl_event.callback_done cr (get_time tv))) := by
  unfold draw_surface
  rw [hb]
  simp only [wl_shm_buffer_get, hshm]
  rcases hfmt with h | h <;>
    simp [cairo_format_for_wl_shm_format, h, WL_SHM_FORMAT_ARGB8888, WL_SHM_FORMAT_XRGB8888]

theorem compositor_draw_ok (priv : WakefieldCompositorPrivate)
    (s : WakefieldSurface) (b : wl_buffer) (shm : wl_shm_buffer) (tv : timeval)
    (hs : priv.surface = some s) (hb : s.current.buffer = some b)
    (hshm : b.shm = some shm) (hfmt : supported_format shm.format) :
    wakefield_compositor_draw priv tv =
      .ok ({ priv with
              surface := some { s with current := { s.current with frame_callbacks := [] } } },
        wl_event.buffer_release b ::
          s.current.frame_callbacks.map (fun cr => wl_event.callback_done cr (get_time tv))) := by
  unfold wakefield_compositor_draw
  rw [hs]
  simp only [draw_surface_ok s b shm tv hb hshm hfmt]

/-- C3: for every active surface whose `current.buffer` is a non-null
shared-memory buffer (one a client can have made: see `receivable_buffer`), a
repaint sends exactly one release event naming `current.buffer`, then exactly
one done event for each entry of `current.frame_callbacks` in queue order (none
for an empty queue), all with the one timestamp read at that repaint, and
leaves `current.frame_callbacks` empty and the rest of the state as it was. -/
theorem C3_draw_sends_release_then_done (priv : WakefieldCompositorPrivate)
    (s : WakefieldSurface) (b : wl_buffer) (tv : timeval)
    (hs : priv.surface = some s) (hb : s.current.buffer = some b)
    (hrecv : receivable_buffer b) :
    wakefield_compositor_draw priv tv =
      .ok ({ priv with
              surface := some { s with current := { s.current with frame_callbacks := [] } } },
        wl_event.buffer_release b ::
          s.current.frame_callbacks.map (fun cr => wl_event.callback_done cr (get_time tv))) :=
  match hrecv with
  | ⟨shm, hshm, hfmt⟩ => compositor_draw_ok priv s b shm tv hs hb hshm hfmt

/-- Witness of C3: `sample_surface` with two queued callbacks, repainted at
second 5: one release of `sample_buffer` and two done events at time 5000. -/
theorem C3_draw_sends_release_then_done_witness :
    wakefield_compositor_draw
      { wakefield_compositor_init with
        surface := some { sample_surface with
          current := { sample_surface.current with frame_callbacks := [11, 12] } } }
      { tv_sec := 5, tv_usec := 0 } =
    .ok ({ wakefield_compositor_init with surface := some sample_surface },
      [wl_event.buffer_release sample_buffer, wl_event.callback_done 11 5000,
       wl_event.callback_done 12 5000]) :=
  C3_draw_sends_release_then_done
    { wakefield_compositor_init with
      surface := some { sample_surface with
        current := { sample_surface.current with frame_callbacks := [11, 12] } } }
    { sample_surface with
      current := { sample_surface.current with frame_callbacks := [11, 12] } }
    sample_buffer { tv_sec := 5, tv_usec := 0 }
    rfl rfl ⟨{ format := WL_SHM_FORMAT_ARGB8888 }, rfl, Or.inl rfl⟩

/-! ### C4: set_buffer_scale -/

/-- C4, as amended: for every surface state and every integer `n`,
set_buffer_scale stores `n` in `pending.scale` whatever its sign and changes
nothing else (no error is raised); a value `n <= 0` is ignored by the next
commit, which leaves `current.scale` as it was, while `n > 0` becomes the
current scale. -/
theorem C4_set_buffer_scale_stores_any_value (s : WakefieldSurface) (n : Int) :
    (wl_surface_set_buffer_scale s n).pending.scale = n ∧
    (wl_surface_set_buffer_scale s n).pending.buffer = s.pending.buffer ∧
    (wl_surface_set_buffer_scale s n).pending.input_region = s.pending.input_region ∧
    (wl_surface_set_buffer_scale s n).pending.frame_callbacks = s.pending.frame_callbacks ∧
    (wl_surface_set_buffer_scale s n).current = s.current ∧
    (wl_surface_set_buffer_scale s n).damage = s.damage ∧
    (wl_surface_set_buffer_scale s n).resource = s.resource ∧
    (wl_surface_commit (wl_surface_set_buffer_scale s n)).1.current.scale =
      (if n > 0 then n else s.current.scale) := by
  refine ⟨rfl, rfl, rfl, rfl, rfl, rfl, rfl, ?_⟩
  rw [commit_eq]
  rfl

/-- C4 as stated fails: with 2 pending as scale, set_buffer_scale(0) is handled
like any other value and `pending.scale` changes from 2 to 0; likewise
set_buffer_scale(-3) leaves -3 pending. -/
theorem C4_counterexample :
    (wl_surface_set_buffer_scale sample_surface 2).pending.scale = 2 ∧
    (wl_surface_set_buffer_scale (wl_surface_set_buffer_scale sample_surface 2) 0).pending.scale
      = 0 ∧
    (wl_surface_set_buffer_scale (wl_surface_set_buffer_scale sample_surface 2) (-3)).pending.scale
      = -3 ∧
    (2 : Int) ≠ 0 :=
  ⟨rfl, rfl, rfl, by decide⟩

/-! ### C5: repaint without a surface or without a buffer -/

/-- C5, the code at the failing input: without an active surface a repaint
sends nothing and changes nothing; with an active surface whose
`current.buffer` is null (as right after create_surface) the repaint reaches
the `g_assert_not_reached ()` of `draw_surface` instead of returning. -/
theorem C5_draw_without_buffer_aborts :
    (∀ (display : wl_display) (seat : WakefieldSeat) (tv : timeval),
      wakefield_compositor_draw { display := display, surface := none, seat := seat } tv =
        .ok ({ display := display, surface := none, seat := seat }, [])) ∧
    (∀ (priv : WakefieldCompositorPrivate) (s : WakefieldSurface) (tv : timeval),
      wakefield_compositor_draw
        { priv with surface := some { s with current := { s.current with buffer := none } } } tv =
        .error Abort.assert_draw_surface) ∧
    (∀ tv : timeval,
      wakefield_compositor_draw (wl_compositor_create_surface wakefield_compositor_init 3) tv =
        .error Abort.assert_draw_surface) :=
  ⟨fun _ _ _ => rfl, fun _ _ _ => rfl, fun _ => rfl⟩

/-! ### C7: the input region at commit -/

/-- C7, as amended: a commit never changes `current.input_region`, whether
`pending.input_region` is null or not; it only resets `pending.input_region`
to null. -/
theorem C7_commit_keeps_current_input_region (s : WakefieldSurface) :
    (wl_surface_commit s).1.current.input_region = s.current.input_region ∧
    (wl_surface_commit s).1.pending.input_region = none := by
  rw [commit_eq]
  exact ⟨rfl, rfl⟩

/-- C7 as stated fails: after set_input_region with a region holding the pixel
(1, 1), `pending.input_region` is non-null and holds that pixel, yet after the
commit `current.input_region` is still null. -/
theorem C7_counterexample :
    (wl_surface_set_input_region sample_surface (some sample_region)).pending.input_region.map
      (fun r => r.contains 1 1) = some true ∧
    (wl_surface_commit
      (wl_surface_set_input_region sample_surface (some sample_region))).1.current.input_region.isNone
      = true :=
  ⟨by decide, rfl⟩

/-! ### C8: the scale at commit -/

/-- The requests other than set_buffer_scale and commit. -/
theorem other_requests_keep_scale (reqs : List SurfaceRequest) :
    ∀ s : WakefieldSurface,
      (∀ r ∈ reqs, r ≠ SurfaceRequest.commit ∧ ∀ k, r ≠ SurfaceRequest.set_buffer_scale k) →
      (surface_requests s reqs).pending.scale = s.pending.scale ∧
      (surface_requests s reqs).current.scale = s.current.scale := by
  induction reqs with
  | nil => intro s _; exact ⟨rfl, rfl⟩
  | cons r rest ih =>
    intro s h
    rw [surface_requests_cons]
    have h1 := ih (surface_interface s r) (fun q hq => h q (List.mem_cons_of_mem _ hq))
    have hr := h r (List.mem_cons_self _ _)
    rw [h1.1, h1.2]
    cases r with
    | commit => exact absurd rfl hr.1
    | set_buffer_scale k => exact absurd rfl (hr.2 k)
    | attach b dx dy => exact ⟨rfl, rfl⟩
    | damage x y w h => exact ⟨rfl, rfl⟩
    | frame c => exact ⟨rfl, rfl⟩
    | set_opaque_region r => exact ⟨rfl, rfl⟩
    | set_input_region r => cases r <;> exact ⟨rfl, rfl⟩
    | set_buffer_transform t => exact ⟨rfl, rfl⟩

/-- C8: for every surface state and every `n > 0`, set_buffer_scale(n), then
any requests other than set_buffer_scale and commit, then commit gives
`current.scale = n`; and a commit reached with the pending scale unset (0, as
a commit leaves it), after any requests other than set_buffer_scale and
commit, leaves `current.scale` unchanged. -/
theorem C8_commit_applies_positive_scale (s : WakefieldSurface) (n : Int) (hn : n > 0)
    (reqs : List SurfaceRequest)
    (hreqs : ∀ r ∈ reqs, r ≠ SurfaceRequest.commit ∧ ∀ k, r ≠ SurfaceRequest.set_buffer_scale k) :
    (surface_requests s
      (SurfaceRequest.set_buffer_scale n :: reqs ++ [SurfaceRequest.commit])).current.scale = n ∧
    (surface_requests (wl_surface_commit s).1
      (reqs ++ [SurfaceRequest.commit])).current.scale = (wl_surface_commit s).1.current.scale ∧
    (s.pending.scale = 0 →
      (surface_requests s (reqs ++ [SurfaceRequest.commit])).current.scale = s.current.scale) := by
  have step : ∀ t : WakefieldSurface,
      (surface_requests t (reqs ++ [SurfaceRequest.commit])).current.scale =
        (if t.pending.scale > 0 then t.pending.scale else t.current.scale) := by
    intro t
    rw [surface_requests_append]
    have h1 := other_requests_keep_scale reqs t hreqs
    show (wl_surface_commit (surface_requests t reqs)).1.current.scale = _
    rw [commit_eq]
    simp only [h1.1, h1.2]
  refine ⟨?_, ?_, ?_⟩
  · rw [List.cons_append, surface_requests_cons, step]
    show (if n > 0 then n else s.current.scale) = n
    simp [hn]
  · rw [step, commit_eq]
    simp
  · intro h0
    rw [step, h0]
    simp

/-- Witness of C8: on `sample_surface`, set_buffer_scale(2), a frame request
and a commit give the current scale 2. -/
theorem C8_commit_applies_positive_scale_witness :
    (2 : Int) > 0 ∧
    (surface_requests sample_surface
      (SurfaceRequest.set_buffer_scale 2 :: [SurfaceRequest.frame 11] ++
        [SurfaceRequest.commit])).current.scale = 2 :=
  ⟨by decide,
   (C8_commit_applies_positive_scale sample_surface 2 (by decide) [SurfaceRequest.frame 11]
      (by simp)).1⟩

/-! ### C9 and C10: the pending state after a commit, and a second commit -/

/-- C9: for every surface state, right after a commit `pending.buffer` is null,
`pending.scale` is 0 (unset) and `pending.frame_callbacks` is empty. -/
theorem C9_commit_resets_pending (s : WakefieldSurface) :
    (wl_surface_commit s).1.pending.buffer = none ∧
    (wl_surface_commit s).1.pending.scale = 0 ∧
    (wl_surface_commit s).1.pending.frame_callbacks = [] := by
  rw [commit_eq]
  exact ⟨rfl, rfl, rfl⟩

/-- C10: a commit right after a commit changes nothing: for every surface
state `s`, `commit (commit s) = commit s` as whole surface states (current
buffer, scale and callback queue, pending state, damage region). -/
theorem C10_commit_idempotent (s : WakefieldSurface) :
    (wl_surface_commit (wl_surface_commit s).1).1 = (wl_surface_commit s).1 :=
  commit_commit s

/-! ### C6: the damage region -/

theorem damage_after_requests (reqs : List SurfaceRequest) :
    ∀ s : WakefieldSurface, (∀ r ∈ reqs, r.is_damage_or_commit = true) →
      ∀ px py : Int,
        (surface_requests s reqs).damage.contains px py =
          ((!reqs.any SurfaceRequest.is_commit && s.damage.contains px py) ||
            (rects_since_commit reqs).any (fun rect => rect.contains px py)) := by
  induction reqs with
  | nil => intro s _ px py; simp [surface_requests, rects_since_commit]
  | cons r rest ih =>
    intro s h px py
    rw [surface_requests_cons, ih _ (fun q hq => h q (List.mem_cons_of_mem _ hq))]
    have hr := h r (List.mem_cons_self _ _)
    cases r with
    | commit =>
      have hc : (surface_interface s SurfaceRequest.commit).damage.contains px py = false := by
        show (wl_surface_commit s).1.damage.contains px py = false
        rw [commit_eq]
        exact intersect_nothing_contains _ _ _
      rw [hc]
      cases hany : rest.any SurfaceRequest.is_commit <;>
        simp [rects_since_commit, hany, SurfaceRequest.is_commit]
    | damage x y w ht =>
      have hd : (surface_interface s (SurfaceRequest.damage x y w ht)).damage.contains px py =
          (s.damage.contains px py ||
            (cairo_rectangle_int_t.mk x y w ht).contains px py) := rfl
      rw [hd]
      cases hany : rest.any SurfaceRequest.is_commit <;>
        simp [rects_since_commit, hany, SurfaceRequest.is_commit, Bool.or_assoc]
    | attach b dx dy => simp [SurfaceRequest.is_damage_or_commit] at hr
    | frame c => simp [SurfaceRequest.is_damage_or_commit] at hr
    | set_opaque_region r => simp [SurfaceRequest.is_damage_or_commit] at hr
    | set_input_region r => simp [SurfaceRequest.is_damage_or_commit] at hr
    | set_buffer_transform t => simp [SurfaceRequest.is_damage_or_commit] at hr
    | set_buffer_scale k => simp [SurfaceRequest.is_damage_or_commit] at hr

/-- C6, as amended: for every surface and every sequence of damage and commit
requests, the damage region afterwards holds exactly the pixels of the
rectangles passed to damage since the most recent commit of the sequence (a
commit hands the region to the widget and then empties it), together with the
damage from before the sequence when the sequence has no commit; and a repaint
that draws the buffer leaves the damage region as it was. -/
theorem C6_damage_accumulates_until_commit (s : WakefieldSurface)
    (reqs : List SurfaceRequest) (h : ∀ r ∈ reqs, r.is_damage_or_commit = true) :
    (∀ px py : Int,
      (surface_requests s reqs).damage.contains px py =
        ((!reqs.any SurfaceRequest.is_commit && s.damage.contains px py) ||
          (rects_since_commit reqs).any (fun rect => rect.contains px py))) ∧
    (∀ (b : wl_buffer) (shm : wl_shm_buffer) (tv : timeval),
      (surface_requests s reqs).current.buffer = some b →
      wl_shm_buffer_get (some b) = some shm → supported_format shm.format →
      ∃ s1 events, draw_surface (surface_requests s reqs) tv = .ok (s1, events) ∧
        s1.damage = (surface_requests s reqs).damage) :=
  ⟨damage_after_requests reqs s h,
   fun b shm tv hb hshm hfmt =>
     ⟨_, _, draw_surface_ok (surface_requests s reqs) b shm tv hb hshm hfmt, rfl⟩⟩

/-- Witness of C6: on `sample_surface`, damage (0,0,4,4), commit, damage
(10,10,2,2): the pixel (1,1) of the first rectangle is no longer damaged, the
pixel (10,10) of the second is. -/
theorem C6_damage_accumulates_until_commit_witness :
    (surface_requests sample_surface
      [SurfaceRequest.damage 0 0 4 4, SurfaceRequest.commit,
       SurfaceRequest.damage 10 10 2 2]).damage.contains 1 1 = false ∧
    (surface_requests sample_surface
      [SurfaceRequest.damage 0 0 4 4, SurfaceRequest.commit,
       SurfaceRequest.damage 10 10 2 2]).damage.contains 10 10 = true :=
  ⟨((C6_damage_accumulates_until_commit sample_surface
      [SurfaceRequest.damage 0 0 4 4, SurfaceRequest.commit, SurfaceRequest.damage 10 10 2 2]
      (by simp [SurfaceRequest.is_damage_or_commit])).1 1 1).trans (by decide),
   ((C6_damage_accumulates_until_commit sample_surface
      [SurfaceRequest.damage 0 0 4 4, SurfaceRequest.commit, SurfaceRequest.damage 10 10 2 2]
      (by simp [SurfaceRequest.is_damage_or_commit])).1 10 10).trans (by decide)⟩

/-- C6 as stated fails: after damage (0,0,4,4) and a commit, with no repaint,
the pixel (1,1) of that rectangle is not in the damage region; and a repaint
of a surface whose damage holds the pixel (1,1) leaves it there. -/
theorem C6_counterexample :
    (cairo_rectangle_int_t.mk 0 0 4 4).contains 1 1 = true ∧
    (surface_requests sample_surface
      [SurfaceRequest.damage 0 0 4 4, SurfaceRequest.commit]).damage.contains 1 1 = false ∧
    (wl_surface_damage sample_surface 0 0 4 4).damage.contains 1 1 = true ∧
    (match draw_surface (wl_surface_damage sample_surface 0 0 4 4) { tv_sec := 5, tv_usec := 0 } with
     | .ok (s1, _) => s1.damage.contains 1 1
     | .error _ => false) = true :=
  ⟨by decide, by decide, by decide, by decide⟩

/-! ### Runs of the compositor -/

theorem compositor_run_cons_ok (priv priv1 : WakefieldCompositorPrivate) (i : Input)
    (rest : List Input) (events1 : List wl_event)
    (h : compositor_step priv i = .ok (priv1, events1)) :
    compositor_run priv (i :: rest) =
      (match compositor_run priv1 rest with
       | .error e => .error e
       | .ok (priv2, events2) => .ok (priv2, events1 ++ events2)) := by
  simp only [compositor_run, h]

theorem compositor_run_append_ok (xs : List Input) :
    ∀ (priv priv1 : WakefieldCompositorPrivate) (events1 : List wl_event) (ys : List Input),
      compositor_run priv xs = .ok (priv1, events1) →
      compositor_run priv (xs ++ ys) =
        (match compositor_run priv1 ys with
         | .error e => .error e
         | .ok (priv2, events2) => .ok (priv2, events1 ++ events2)) := by
  induction xs with
  | nil =>
    intro priv priv1 events1 ys h
    simp only [compositor_run, Except.ok.injEq, Prod.mk.injEq] at h
    obtain ⟨h1, h2⟩ := h
    subst h1; subst h2
    cases hr : compositor_run priv ys with
    | error e => simp [hr]
    | ok r => simp [hr]
  | cons i rest ih =>
    intro priv priv1 events1 ys h
    cases hstep : compositor_step priv i with
    | error e => simp [compositor_run, hstep] at h
    | ok r =>
      obtain ⟨pa, ea⟩ := r
      rw [compositor_run_cons_ok priv pa i rest ea hstep] at h
      rw [List.cons_append, compositor_run_cons_ok priv pa i (rest ++ ys) ea hstep]
      cases hrest : compositor_run pa rest with
      | error e => simp [hrest] at h
      | ok r2 =>
        obtain ⟨pb, eb⟩ := r2
        simp only [hrest, Except.ok.injEq, Prod.mk.injEq] at h
        obtain ⟨h1, h2⟩ := h
        subst h1; subst h2
        rw [ih pa pb eb ys hrest]
        cases hys : compositor_run pb ys with
        | error e => simp
        | ok r3 => simp [List.append_assoc]

theorem done_count_append (c : Nat) (xs ys : List wl_event) :
    done_count c (xs ++ ys) = done_count c xs + done_count c ys := by
  simp [done_count, List.filter_append]

theorem done_count_map_done (c : Nat) (time : Nat) (callbacks : List Nat) :
    done_count c (callbacks.map (fun cr => wl_event.callback_done cr time)) =
      callbacks.count c := by
  induction callbacks with
  | nil => rfl
  | cons a rest ih =>
    simp only [done_count, List.map_cons, List.filter_cons] at ih ⊢
    by_cases h : a = c
    · subst h; simp [ih]
    · have h2 : ¬ (a == c) = true := by simpa using h
      simp [h, ih, List.count_cons, h2]

theorem is_commit_eq (o : Input) (h : o.is_commit = true) :
    o = Input.request SurfaceRequest.commit := by
  cases o with
  | draw tv => simp [Input.is_commit] at h
  | request r => cases r <;> simp [Input.is_commit] at h ⊢

theorem commit_step (priv : WakefieldCompositorPrivate) (s : WakefieldSurface)
    (hs : priv.surface = some s) :
    compositor_step priv (Input.request SurfaceRequest.commit) =
      .ok ({ priv with surface := some (wl_surface_commit s).1 }, []) := by
  simp only [compositor_step, client_request, hs, surface_interface]

theorem commits_run_fixed (commits : List Input) (hall : ∀ o ∈ commits, o.is_commit = true)
    (priv : WakefieldCompositorPrivate) (t : WakefieldSurface)
    (hs : priv.surface = some (wl_surface_commit t).1) :
    compositor_run priv commits = .ok (priv, []) := by
  induction commits with
  | nil => rfl
  | cons o rest ih =>
    have ho := is_commit_eq o (hall o (List.mem_cons_self _ _))
    subst ho
    have hfix : ({ priv with surface := some (wl_surface_commit (wl_surface_commit t).1).1 } :
        WakefieldCompositorPrivate) = priv := by
      rw [commit_commit, ← hs]
    have hstep := commit_step priv _ hs
    rw [hfix] at hstep
    rw [compositor_run_cons_ok priv priv _ rest [] hstep,
      ih (fun q hq => hall q (List.mem_cons_of_mem _ hq))]
    rfl

theorem later_run_sends_no_done (c : Nat) (b : wl_buffer) (shm : wl_shm_buffer)
    (hshm : b.shm = some shm) (hfmt : supported_format shm.format) (ops : List Input) :
    ∀ (priv : WakefieldCompositorPrivate) (u : WakefieldSurface),
      priv.surface = some u → u.pending.buffer = none → u.pending.frame_callbacks = [] →
      u.current.buffer = some b → c ∉ u.current.frame_callbacks →
      (∀ o ∈ ops, o.is_commit_or_draw = true) →
      ∃ p e, compositor_run priv ops = .ok (p, e) ∧ done_count c e = 0 := by
  induction ops with
  | nil => intro priv u _ _ _ _ _ _; exact ⟨priv, [], rfl, rfl⟩
  | cons o rest ih =>
    intro priv u hs hpb hpf hcb hc hall
    have hrest : ∀ q ∈ rest, q.is_commit_or_draw = true :=
      fun q hq => hall q (List.mem_cons_of_mem _ hq)
    have ho := hall o (List.mem_cons_self _ _)
    cases o with
    | draw tv =>
      have hstep : compositor_step priv (Input.draw tv) = _ :=
        compositor_draw_ok priv u b shm tv hs hcb hshm hfmt
      obtain ⟨p, e, hrun, hcount⟩ :=
        ih { priv with
             surface := some { u with current := { u.current with frame_callbacks := [] } } }
          { u with current := { u.current with frame_callbacks := [] } }
          rfl hpb hpf hcb (List.not_mem_nil c) hrest
      rw [compositor_run_cons_ok priv _ _ rest _ hstep, hrun]
      refine ⟨p, _, rfl, ?_⟩
      rw [done_count_append, hcount, ← List.singleton_append, done_count_append,
        done_count_map_done, List.count_eq_zero_of_not_mem hc]
      rfl
    | request r =>
      cases r with
      | commit =>
        have hstep := commit_step priv u hs
        have hu := commit_eq u
        obtain ⟨p, e, hrun, hcount⟩ :=
          ih { priv with surface := some (wl_surface_commit u).1 } (wl_surface_commit u).1 rfl
          (by rw [hu]) (by rw [hu]) (by rw [hu]; simp [hpb, hcb]) (by rw [hu]; simp [hpf, hc])
          hrest
        rw [compositor_run_cons_ok priv _ _ rest _ hstep, hrun]
        exact ⟨p, _, rfl, by simpa using hcount⟩
      | attach b dx dy => simp [Input.is_commit_or_draw] at ho
      | damage x y w ht => simp [Input.is_commit_or_draw] at ho
      | frame c => simp [Input.is_commit_or_draw] at ho
      | set_opaque_region r => simp [Input.is_commit_or_draw] at ho
      | set_input_region r => simp [Input.is_commit_or_draw] at ho
      | set_buffer_transform t => simp [Input.is_commit_or_draw] at ho
      | set_buffer_scale k => simp [Input.is_commit_or_draw] at ho

theorem first_draw_then_rest (c : Nat) (b : wl_buffer) (shm : wl_shm_buffer)
    (hshm : b.shm = some shm) (hfmt : supported_format shm.format)
    (priv0 : WakefieldCompositorPrivate) (t : WakefieldSurface)
    (hs : priv0.surface = some t) (hpb : t.pending.buffer = none)
    (hpf : t.pending.frame_callbacks = []) (hcb : t.current.buffer = some b)
    (hcnt : t.current.frame_callbacks.count c = 1)
    (tv : timeval) (rest : List Input) (hrest : ∀ o ∈ rest, o.is_commit_or_draw = true) :
    (∃ p1 e1, compositor_run priv0 [Input.draw tv] = .ok (p1, e1) ∧
      wl_event.callback_done c (get_time tv) ∈ e1 ∧ done_count c e1 = 1) ∧
    (∃ p2 e2, compositor_run priv0 (Input.draw tv :: rest) = .ok (p2, e2) ∧
      done_count c e2 = 1) := by
  have hdraw : compositor_step priv0 (Input.draw tv) = _ :=
    compositor_draw_ok priv0 t b shm tv hs hcb hshm hfmt
  have hcount : done_count c
      (wl_event.buffer_release b ::
        t.current.frame_callbacks.map (fun cr => wl_event.callback_done cr (get_time tv))) = 1 := by
    rw [← List.singleton_append, done_count_append, done_count_map_done, hcnt]
    rfl
  have hin : c ∈ t.current.frame_callbacks := by
    apply List.count_pos_iff.mp
    omega
  have hmem : wl_event.callback_done c (get_time tv) ∈
      (wl_event.buffer_release b ::
        t.current.frame_callbacks.map (fun cr => wl_event.callback_done cr (get_time tv))) :=
    List.mem_cons_of_mem _ (List.mem_map.mpr ⟨c, hin, rfl⟩)
  obtain ⟨p2, e2, hrun2, hcount2⟩ := later_run_sends_no_done c b shm hshm hfmt rest
    { priv0 with surface := some { t with current := { t.current with frame_callbacks := [] } } }
    { t with current := { t.current with frame_callbacks := [] } }
    rfl hpb hpf hcb (List.not_mem_nil c) hrest
  constructor
  · have hrun1 : compositor_run priv0 [Input.draw tv] = .ok (_, _ ++ []) :=
      compositor_run_cons_ok priv0 _ _ [] _ hdraw
    exact ⟨_, _, hrun1, by simpa using hmem, by simpa using hcount⟩
  · have hrun : compositor_run priv0 (Input.draw tv :: rest) =
        .ok (p2, (wl_event.buffer_release b ::
          t.current.frame_callbacks.map (fun cr => wl_event.callback_done cr (get_time tv)))
            ++ e2) := by
      rw [compositor_run_cons_ok priv0 _ _ rest _ hdraw, hrun2]
    refine ⟨p2, _, hrun, ?_⟩
    rw [done_count_append, hcount, hcount2]

/-! ### C2: a frame callback is done once -/

theorem frame_then_commit_done_once (priv : WakefieldCompositorPrivate)
    (s : WakefieldSurface) (c : Nat) (b : wl_buffer) (shm : wl_shm_buffer)
    (hs : priv.surface = some s)
    (hp : c ∉ s.pending.frame_callbacks) (hc : c ∉ s.current.frame_callbacks)
    (hb : (wl_surface_commit (wl_surface_frame s c)).1.current.buffer = some b)
    (hshm : wl_shm_buffer_get (some b) = some shm) (hfmt : supported_format shm.format)
    (commits : List Input) (hcommits : ∀ o ∈ commits, o.is_commit = true)
    (tv : timeval) (rest : List Input) (hrest : ∀ o ∈ rest, o.is_commit_or_draw = true) :
    (∃ p0, compositor_run priv
        (Input.request (SurfaceRequest.frame c) :: Input.request SurfaceRequest.commit ::
          commits) = .ok (p0, [])) ∧
    (∃ p1 e1, compositor_run priv
        ((Input.request (SurfaceRequest.frame c) :: Input.request SurfaceRequest.commit ::
          commits) ++ [Input.draw tv]) = .ok (p1, e1) ∧
        wl_event.callback_done c (get_time tv) ∈ e1 ∧ done_count c e1 = 1) ∧
    (∃ p2 e2, compositor_run priv
        ((Input.request (SurfaceRequest.frame c) :: Input.request SurfaceRequest.commit ::
          commits) ++ Input.draw tv :: rest) = .ok (p2, e2) ∧ done_count c e2 = 1) := by
  have hshm1 : b.shm = some shm := hshm
  have hstep1 : compositor_step priv (Input.request (SurfaceRequest.frame c)) =
      .ok ({ priv with surface := some (wl_surface_frame s c) }, []) := by
    simp only [compositor_step, client_request, hs, surface_interface]
  have hstep2 := commit_step { priv with surface := some (wl_surface_frame s c) }
    (wl_surface_frame s c) rfl
  have hfixed := commits_run_fixed commits hcommits
    { priv with surface := some (wl_surface_commit (wl_surface_frame s c)).1 }
    (wl_surface_frame s c) rfl
  have hstart : compositor_run priv
      (Input.request (SurfaceRequest.frame c) :: Input.request SurfaceRequest.commit ::
        commits) =
      .ok ({ priv with surface := some (wl_surface_commit (wl_surface_frame s c)).1 }, []) := by
    rw [compositor_run_cons_ok priv _ _ _ _ hstep1, compositor_run_cons_ok _ _ _ _ _ hstep2]
    dsimp only
    rw [hfixed]
    rfl
  have hqueue : (wl_surface_commit (wl_surface_frame s c)).1.current.frame_callbacks =
      c :: (s.pending.frame_callbacks ++ s.current.frame_callbacks) := by
    rw [commit_eq]; rfl
  have hcnt : (wl_surface_commit (wl_surface_frame s c)).1.current.frame_callbacks.count c
      = 1 := by
    rw [hqueue]
    have h0 : List.count c (s.pending.frame_callbacks ++ s.current.frame_callbacks) = 0 :=
      List.count_eq_zero_of_not_mem (by simp [hp, hc])
    simp [List.count_cons, h0]
  obtain ⟨⟨p1, e1, hrun1, hmem1, hcount1⟩, ⟨p2, e2, hrun2, hcount2⟩⟩ :=
    first_draw_then_rest c b shm hshm1 hfmt
      { priv with surface := some (wl_surface_commit (wl_surface_frame s c)).1 }
      (wl_surface_commit (wl_surface_frame s c)).1 rfl (by rw [commit_eq]) (by rw [commit_eq])
      hb hcnt tv rest hrest
  refine ⟨⟨_, hstart⟩, ⟨p1, e1, ?_, hmem1, hcount1⟩, ⟨p2, e2, ?_, hcount2⟩⟩
  · rw [compositor_run_append_ok _ _ _ _ _ hstart, hrun1]
    rfl
  · rw [compositor_run_append_ok _ _ _ _ _ hstart, hrun2]
    rfl

/-- C2: for every active surface with a non-null current buffer (the buffers
the surface refers to being ones a client can have made: see
`receivable_buffer`) and every frame callback `c` newly registered by frame and
then committed: that commit and any further commits send nothing; the first
repaint after them sends `c` exactly one done event, with the timestamp of that
repaint; and over any following sequence of commits and repaints `c` receives
no further done event, so the whole run sends `c` exactly one. -/
theorem C2_frame_callback_done_once (priv : WakefieldCompositorPrivate)
    (s : WakefieldSurface) (c : Nat) (b0 : wl_buffer)
    (hs : priv.surface = some s)
    (hcur : s.current.buffer = some b0) (hrecv : receivable_buffer b0)
    (hpend : ∀ b, s.pending.buffer = some b → receivable_buffer b)
    (hp : c ∉ s.pending.frame_callbacks) (hc : c ∉ s.current.frame_callbacks)
    (commits : List Input) (hcommits : ∀ o ∈ commits, o.is_commit = true)
    (tv : timeval) (rest : List Input) (hrest : ∀ o ∈ rest, o.is_commit_or_draw = true) :
    (∃ p0, compositor_run priv
        (Input.request (SurfaceRequest.frame c) :: Input.request SurfaceRequest.commit ::
          commits) = .ok (p0, [])) ∧
    (∃ p1 e1, compositor_run priv
        ((Input.request (SurfaceRequest.frame c) :: Input.request SurfaceRequest.commit ::
          commits) ++ [Input.draw tv]) = .ok (p1, e1) ∧
        wl_event.callback_done c (get_time tv) ∈ e1 ∧ done_count c e1 = 1) ∧
    (∃ p2 e2, compositor_run priv
        ((Input.request (SurfaceRequest.frame c) :: Input.request SurfaceRequest.commit ::
          commits) ++ Input.draw tv :: rest) = .ok (p2, e2) ∧ done_count c e2 = 1) := by
  have hbuf : (wl_surface_commit (wl_surface_frame s c)).1.current.buffer =
      (match s.pending.buffer with
       | some b => some b
       | none => s.current.buffer) := by
    rw [commit_eq]; rfl
  cases hpb : s.pending.buffer with
  | none =>
    rw [hpb] at hbuf
    obtain ⟨shm, hshm, hfmt⟩ := hrecv
    exact frame_then_commit_done_once priv s c b0 shm hs hp hc (hbuf.trans hcur) hshm hfmt
      commits hcommits tv rest hrest
  | some b =>
    rw [hpb] at hbuf
    obtain ⟨shm, hshm, hfmt⟩ := hpend b hpb
    exact frame_then_commit_done_once priv s c b shm hs hp hc hbuf hshm hfmt
      commits hcommits tv rest hrest

/-- Witness of C2: on `sample_surface`, frame(11); commit; commit; repaint;
repaint sends callback 11 exactly one done event. -/
theorem C2_frame_callback_done_once_witness :
    ∃ p2 e2, compositor_run { wakefield_compositor_init with surface := some sample_surface }
        ((Input.request (SurfaceRequest.frame 11) :: Input.request SurfaceRequest.commit ::
          [Input.request SurfaceRequest.commit]) ++
          Input.draw { tv_sec := 5, tv_usec := 0 } ::
            [Input.draw { tv_sec := 6, tv_usec := 0 }]) = .ok (p2, e2) ∧
      done_count 11 e2 = 1 :=
  (C2_frame_callback_done_once
    { wakefield_compositor_init with surface := some sample_surface } sample_surface 11
    sample_buffer rfl rfl ⟨{ format := WL_SHM_FORMAT_ARGB8888 }, rfl, Or.inl rfl⟩
    (by intro b hb; simp [sample_surface] at hb)
    (by simp [sample_surface]) (by simp [sample_surface])
    [Input.request SurfaceRequest.commit] (by simp [Input.is_commit])
    { tv_sec := 5, tv_usec := 0 } [Input.draw { tv_sec := 6, tv_usec := 0 }]
    (by simp [Input.is_commit_or_draw])).2.2

/-! ### C11: the order of the frame callbacks -/

theorem callbacks_after_requests (reqs : List SurfaceRequest) :
    ∀ s : WakefieldSurface, (∀ r ∈ reqs, r.is_frame_or_commit = true) →
      (surface_requests s reqs).pending.frame_callbacks ++
          (surface_requests s reqs).current.frame_callbacks =
        (registered_callbacks reqs).reverse ++
          (s.pending.frame_callbacks ++ s.current.frame_callbacks) := by
  induction reqs with
  | nil => intro s _; simp [surface_requests, registered_callbacks]
  | cons r rest ih =>
    intro s h
    rw [surface_requests_cons, ih _ (fun q hq => h q (List.mem_cons_of_mem _ hq))]
    have hr := h r (List.mem_cons_self _ _)
    cases r with
    | frame c =>
      simp [registered_callbacks, surface_interface, wl_surface_frame]
    | commit =>
      have hc : surface_interface s SurfaceRequest.commit = (wl_surface_commit s).1 := rfl
      rw [hc, commit_eq]
      simp [registered_callbacks]
    | attach b dx dy => simp [SurfaceRequest.is_frame_or_commit] at hr
    | damage x y w ht => simp [SurfaceRequest.is_frame_or_commit] at hr
    | set_opaque_region r => simp [SurfaceRequest.is_frame_or_commit] at hr
    | set_input_region r => simp [SurfaceRequest.is_frame_or_commit] at hr
    | set_buffer_transform t => simp [SurfaceRequest.is_frame_or_commit] at hr
    | set_buffer_scale k => simp [SurfaceRequest.is_frame_or_commit] at hr

theorem done_order_draw (b : wl_buffer) (time : Nat) (callbacks : List Nat) :
    done_order (wl_event.buffer_release b ::
      callbacks.map (fun cr => wl_event.callback_done cr time)) = callbacks := by
  induction callbacks with
  | nil => rfl
  | cons c rest ih =>
    simp only [done_order, List.map_cons, List.filterMap_cons] at ih ⊢
    rw [ih]

/-- C11, as amended: frame callbacks are kept newest first. For every surface
and every sequence of frame and commit requests, the pending queue followed by
the current queue holds the callbacks registered by the sequence in the reverse
of the order in which frame registered them, followed by what the two queues
held before (frame links the callback at the head of the pending queue, commit
puts the pending queue in front of the callbacks already current); so after a
closing commit `current.frame_callbacks` holds the committed callbacks in
reverse registration order, and the next repaint that draws the buffer sends
the done events in that order, the newest callback first. -/
theorem C11_frame_callbacks_newest_first (s : WakefieldSurface)
    (reqs : List SurfaceRequest) (h : ∀ r ∈ reqs, r.is_frame_or_commit = true) :
    ((surface_requests s reqs).pending.frame_callbacks ++
        (surface_requests s reqs).current.frame_callbacks =
      (registered_callbacks reqs).reverse ++
        (s.pending.frame_callbacks ++ s.current.frame_callbacks)) ∧
    ((surface_requests s (reqs ++ [SurfaceRequest.commit])).current.frame_callbacks =
      (registered_callbacks reqs).reverse ++
        (s.pending.frame_callbacks ++ s.current.frame_callbacks)) ∧
    (∀ (b : wl_buffer) (shm : wl_shm_buffer) (tv : timeval),
      (surface_requests s (reqs ++ [SurfaceRequest.commit])).current.buffer = some b →
      wl_shm_buffer_get (some b) = some shm → supported_format shm.format →
      ∃ s1 events,
        draw_surface (surface_requests s (reqs ++ [SurfaceRequest.commit])) tv =
          .ok (s1, events) ∧
        done_order events =
          (registered_callbacks reqs).reverse ++
            (s.pending.frame_callbacks ++ s.current.frame_callbacks)) := by
  have hinv := callbacks_after_requests reqs s h
  have hcur : (surface_requests s (reqs ++ [SurfaceRequest.commit])).current.frame_callbacks =
      (registered_callbacks reqs).reverse ++
        (s.pending.frame_callbacks ++ s.current.frame_callbacks) := by
    rw [surface_requests_append, ← hinv]
    show (wl_surface_commit (surface_requests s reqs)).1.current.frame_callbacks = _
    rw [commit_eq]
  refine ⟨hinv, hcur, ?_⟩
  intro b shm tv hb hshm hfmt
  refine ⟨_, _, draw_surface_ok _ b shm tv hb hshm hfmt, ?_⟩
  rw [done_order_draw, hcur]

/-- Witness of C11: on `sample_surface`, frame(11); frame(12); commit;
frame(13); commit leaves the queue [13, 12, 11]. -/
theorem C11_frame_callbacks_newest_first_witness :
    (surface_requests sample_surface
      ([SurfaceRequest.frame 11, SurfaceRequest.frame 12, SurfaceRequest.commit,
        SurfaceRequest.frame 13] ++ [SurfaceRequest.commit])).current.frame_callbacks =
      [13, 12, 11] :=
  (C11_frame_callbacks_newest_first sample_surface
    [SurfaceRequest.frame 11, SurfaceRequest.frame 12, SurfaceRequest.commit,
      SurfaceRequest.frame 13]
    (by simp [SurfaceRequest.is_frame_or_commit])).2.1

/-- C11 as stated fails: on `sample_surface`, frame(11); frame(12); commit
registers 11 before 12, yet `current.frame_callbacks` is [12, 11] and the next
repaint sends the done event of 12 before that of 11. -/
theorem C11_counterexample :
    registered_callbacks
      [SurfaceRequest.frame 11, SurfaceRequest.frame 12, SurfaceRequest.commit] = [11, 12] ∧
    (surface_requests sample_surface
      [SurfaceRequest.frame 11, SurfaceRequest.frame 12,
        SurfaceRequest.commit]).current.frame_callbacks = [12, 11] ∧
    (match draw_surface
        (surface_requests sample_surface
          [SurfaceRequest.frame 11, SurfaceRequest.frame 12, SurfaceRequest.commit])
        { tv_sec := 5, tv_usec := 0 } with
     | .ok (_, events) => done_order events
     | .error _ => []) = [12, 11] ∧
    ([12, 11] : List Nat) ≠ [11, 12] :=
  ⟨rfl, rfl, rfl, by decide⟩

/-! ### C12: the input region is a copy -/

theorem heap_read_set_ne (cells : List (Option cairo_region_t)) (a b : Nat)
    (v : Option cairo_region_t) (h : a ≠ b) :
    (cairo_heap.mk (cells.set b v)).read a = (cairo_heap.mk cells).read a := by
  simp [cairo_heap.read, List.getElem?_set, h.symm]

theorem heap_read_lt (heap : cairo_heap) (a : Nat) (v : cairo_region_t)
    (h : heap.read a = some v) : a < heap.cells.length := by
  by_contra hlt
  have hnone : heap.cells.get? a = none := by
    simp only [List.get?_eq_getElem?, List.getElem?_eq_none_iff]
    omega
  rw [cairo_heap.read, hnone] at h
  simp at h

theorem heap_read_new (cells : List (Option cairo_region_t)) (v : cairo_region_t) :
    (cairo_heap.mk (cells ++ [some v])).read cells.length = some v := by
  simp [cairo_heap.read]

theorem heap_read_old (cells : List (Option cairo_region_t)) (v : Option cairo_region_t)
    (a : Nat) (h : a < cells.length) :
    (cairo_heap.mk (cells ++ [v])).read a = (cairo_heap.mk cells).read a := by
  simp [cairo_heap.read, List.getElem?_append_left h]

theorem region_interface_read (g : cairo_heap) (region : Option Heap.WakefieldRegion)
    (r : Heap.RegionRequest) (a : Nat) (h : ∀ q, region = some q → q.region ≠ a) :
    (Heap.region_interface (g, region) r).1.read a = g.read a ∧
    (∀ q, (Heap.region_interface (g, region) r).2 = some q → q.region ≠ a) := by
  cases region with
  | none => cases r <;> exact ⟨rfl, fun q hq => by simp [Heap.region_interface] at hq⟩
  | some q0 =>
    have hne : a ≠ q0.region := fun e => h q0 rfl e.symm
    cases r with
    | destroy =>
      refine ⟨heap_read_set_ne g.cells a q0.region none hne, ?_⟩
      intro q hq
      simp [Heap.region_interface] at hq
    | add x y w ht =>
      refine ⟨?_, fun q hq => ?_⟩
      · simp only [Heap.region_interface, Heap.wl_region_add, Heap.cairo_region_union_rectangle]
        cases hread : g.read q0.region with
        | none => rfl
        | some value => exact heap_read_set_ne g.cells a q0.region _ hne
      · simp only [Heap.region_interface, Option.some.injEq] at hq
        rw [← hq]
        exact h q0 rfl
    | subtract x y w ht =>
      refine ⟨?_, fun q hq => ?_⟩
      · simp only [Heap.region_interface, Heap.wl_region_subtract,
          Heap.cairo_region_subtract_rectangle]
        cases hread : g.read q0.region with
        | none => rfl
        | some value => exact heap_read_set_ne g.cells a q0.region _ hne
      · simp only [Heap.region_interface, Option.some.injEq] at hq
        rw [← hq]
        exact h q0 rfl

theorem region_requests_read (reqs : List Heap.RegionRequest) (a : Nat) :
    ∀ (g : cairo_heap) (region : Option Heap.WakefieldRegion),
      (∀ q, region = some q → q.region ≠ a) →
      (Heap.region_requests g region reqs).1.read a = g.read a := by
  induction reqs with
  | nil => intro g region _; rfl
  | cons r rest ih =>
    intro g region h
    have hstep := region_interface_read g region r a h
    have hfold : Heap.region_requests g region (r :: rest) =
        Heap.region_requests (Heap.region_interface (g, region) r).1
          (Heap.region_interface (g, region) r).2 rest := rfl
    rw [hfold, ih _ _ hstep.2, hstep.1]

theorem set_input_region_copy (heap : cairo_heap) (p : Option Nat)
    (R : Heap.WakefieldRegion) (v : cairo_region_t)
    (hR : heap.read R.region = some v) (hp : p ≠ some R.region) :
    Heap.wl_surface_set_input_region heap p (some R) =
      ({ cells := (match p with
            | some q => Heap.cairo_region_destroy heap q
            | none => heap).cells ++ [some v] }, some heap.cells.length) := by
  have hlen : (match p with
      | some q => Heap.cairo_region_destroy heap q
      | none => heap).cells.length = heap.cells.length := by
    cases p <;> simp [Heap.cairo_region_destroy]
  have hread : (match p with
      | some q => Heap.cairo_region_destroy heap q
      | none => heap).read R.region = some v := by
    cases p with
    | none => exact hR
    | some q =>
      have hne : R.region ≠ q := fun e => hp (by rw [e])
      exact (heap_read_set_ne heap.cells R.region q none hne).trans hR
  simp only [Heap.wl_surface_set_input_region, Heap.cairo_region_copy, hread, hlen]
  rfl

/-- C12: copy on assign. Regions are objects at addresses. For every live
region resource R holding the rectangle set `v`, and every surface whose
`pending.input_region` is null or an object other than that of R, after
set_input_region(S, R) `pending.input_region` points to an object that holds
`v`, and that object still holds `v` after any sequence of add, subtract and
destroy requests to R; set_input_region(S, null) leaves `pending.input_region`
null. In terms of values: the pending input region is the set R had at the
call. -/
theorem C12_input_region_is_a_copy (heap : cairo_heap) (p : Option Nat)
    (R : Heap.WakefieldRegion) (v : cairo_region_t) (reqs : List Heap.RegionRequest)
    (hR : heap.read R.region = some v) (hp : p ≠ some R.region) :
    (∃ a, (Heap.wl_surface_set_input_region heap p (some R)).2 = some a ∧
      a ≠ R.region ∧
      (Heap.wl_surface_set_input_region heap p (some R)).1.read a = some v ∧
      (Heap.region_requests (Heap.wl_surface_set_input_region heap p (some R)).1
        (some R) reqs).1.read a = some v) ∧
    (Heap.wl_surface_set_input_region heap p none).2 = none ∧
    (∀ (s : WakefieldSurface) (region : Wakefield.WakefieldRegion),
      (wl_surface_set_input_region s (some region)).pending.input_region = some region.region ∧
      (wl_surface_set_input_region s none).pending.input_region = none) := by
  have hlt := heap_read_lt heap R.region v hR
  have hne : heap.cells.length ≠ R.region := by omega
  have hlen : (match p with
      | some q => Heap.cairo_region_destroy heap q
      | none => heap).cells.length = heap.cells.length := by
    cases p <;> simp [Heap.cairo_region_destroy]
  have hnew : (cairo_heap.mk ((match p with
      | some q => Heap.cairo_region_destroy heap q
      | none => heap).cells ++ [some v])).read heap.cells.length = some v := by
    rw [← hlen]
    exact heap_read_new _ v
  refine ⟨⟨heap.cells.length, ?_, hne, ?_, ?_⟩, rfl, fun s region => ⟨rfl, rfl⟩⟩
  · rw [set_input_region_copy heap p R v hR hp]
  · rw [set_input_region_copy heap p R v hR hp]
    exact hnew
  · rw [set_input_region_copy heap p R v hR hp]
    rw [region_requests_read reqs heap.cells.length _ (some R)
      (fun q hq => by cases hq; exact fun e => hne e.symm)]
    exact hnew

/-- Witness of C12: with the region (0,0,4,4) at address 0 and a null pending
input region, set_input_region makes a copy at address 1 that still holds the
pixel (1,1) after subtract (0,0,4,4) and destroy on the region resource. -/
theorem C12_input_region_is_a_copy_witness :
    ∃ a, (Heap.wl_surface_set_input_region { cells := [some sample_region.region] } none
        (some { resource := 5, region := 0 })).2 = some a ∧
      a ≠ 0 ∧
      (Heap.wl_surface_set_input_region { cells := [some sample_region.region] } none
        (some { resource := 5, region := 0 })).1.read a = some sample_region.region ∧
      (Heap.region_requests
        (Heap.wl_surface_set_input_region { cells := [some sample_region.region] } none
          (some { resource := 5, region := 0 })).1
        (some { resource := 5, region := 0 })
        [Heap.RegionRequest.subtract 0 0 4 4, Heap.RegionRequest.destroy]).1.read a =
        some sample_region.region :=
  (C12_input_region_is_a_copy { cells := [some sample_region.region] } none
    { resource := 5, region := 0 } sample_region.region
    [Heap.RegionRequest.subtract 0 0 4 4, Heap.RegionRequest.destroy] rfl (by simp)).1

/-! ### C13: serials of the input events -/

/-- C14: for every state with `n` pointer resources in the seat's list and every
button event, the button broadcast takes exactly one serial (the counter
advances by one modulo 2^32, nothing else in the state changes) and sends
exactly `n` button messages, one to each pointer resource of the list in list
order, all with that serial, the time and the button code of the event, and the
same state: 1 for a `GDK_BUTTON_PRESS` event, 0 for a `GDK_BUTTON_RELEASE`
event. The press and release handlers are this broadcast. -/
theorem C14_button_broadcast_one_serial (priv : WakefieldCompositorPrivate)
    (event : GdkEventButton) :
    (broadcast_button priv event).2 =
      priv.seat.pointer.resource_list.map (fun pointer =>
        wl_event.pointer_button pointer ((priv.display.serial + 1) % 4294967296) event.time
          event.button (if event.type = GdkEventType.GDK_BUTTON_PRESS then 1 else 0)) ∧
    (broadcast_button priv event).2.length = priv.seat.pointer.resource_list.length ∧
    (broadcast_button priv event).2.filterMap event_pointer =
      priv.seat.pointer.resource_list ∧
    (∀ a ∈ serials_of (broadcast_button priv event).2,
      a = (priv.display.serial + 1) % 4294967296) ∧
    (broadcast_button priv event).1.display.serial = (priv.display.serial + 1) % 4294967296 ∧
    (broadcast_button priv event).1.surface = priv.surface ∧
    (broadcast_button priv event).1.seat = priv.seat ∧
    (broadcast_button priv { event with type := GdkEventType.GDK_BUTTON_PRESS }).2 =
      priv.seat.pointer.resource_list.map (fun pointer =>
        wl_event.pointer_button pointer ((priv.display.serial + 1) % 4294967296) event.time
          event.button 1) ∧
    (broadcast_button priv { event with type := GdkEventType.GDK_BUTTON_RELEASE }).2 =
      priv.seat.pointer.resource_list.map (fun pointer =>
        wl_event.pointer_button pointer ((priv.display.serial + 1) % 4294967296) event.time
          event.button 0) ∧
    wakefield_compositor_button_press_event priv event = broadcast_button priv event ∧
    wakefield_compositor_button_release_event priv event = broadcast_button priv event := by
  refine ⟨rfl, ?_, ?_, ?_, rfl, rfl, rfl, rfl, rfl, rfl, rfl⟩
  · simp [broadcast_button]
  · simp only [broadcast_button, List.filterMap_map]
    induction priv.seat.pointer.resource_list with
    | nil => rfl
    | cons p ps ih => simp only [List.filterMap_cons, Function.comp, event_pointer, ih]
  · intro a ha
    simp only [broadcast_button, serials_of, List.filterMap_map, List.mem_filterMap,
      Function.comp, event_serial] at ha
    obtain ⟨_, _, h2⟩ := ha
    exact (Option.some.inj h2).symm

/-! ### C15: enter without an active surface -/

/-- C15, the code at the failing input: without an active surface, an enter
event with at least one pointer resource in the seat's list reads
`priv->surface->resource` through the null pointer; with no pointer resource it
returns and sends nothing, but the serial counter has advanced. -/
theorem C15_enter_without_surface_fails :
    (∀ (display : wl_display) (p : Nat) (ps : List Nat) (cursor : Option Nat)
        (event : GdkEventCrossing),
      wakefield_compositor_enter_notify_event
        { display := display, surface := none,
          seat := { pointer := { resource_list := p :: ps, cursor_surface := cursor } } }
        event = .error Abort.null_surface) ∧
    (∀ (display : wl_display) (cursor : Option Nat) (event : GdkEventCrossing),
      wakefield_compositor_enter_notify_event
        { display := display, surface := none,
          seat := { pointer := { resource_list := [], cursor_surface := cursor } } }
        event =
      .ok ({ display := { serial := (display.serial + 1) % 4294967296 }, surface := none,
             seat := { pointer := { resource_list := [], cursor_surface := cursor } } }, [])) ∧
    wakefield_compositor_enter_notify_event (seat_get_pointer wakefield_compositor_init 20)
      { x := 1, y := 2 } = .error Abort.null_surface ∧
    (match wakefield_compositor_enter_notify_event wakefield_compositor_init
        { x := 1, y := 2 } with
     | .ok (priv1, _) => priv1.display.serial
     | .error _ => 0) = 1 ∧
    wakefield_compositor_init.display.serial = 0 :=
  ⟨fun _ _ _ _ _ => rfl, fun _ _ _ => rfl, rfl, rfl, rfl⟩

/-! ### C16: a second create_surface -/

/-- C16, as amended: when there is an active surface, a further
create_surface(id) is ignored: the handler returns at once, no surface resource
is made for `id` (the only live surface resource is still that of the active
surface), and the active surface with its pending and current state, like the
whole compositor state, is unchanged. -/
theorem C16_second_create_surface_ignored (priv : WakefieldCompositorPrivate)
    (s : WakefieldSurface) (id : Nat) (hs : priv.surface = some s) :
    wl_compositor_create_surface priv id = priv ∧
    (wl_compositor_create_surface priv id).surface = some s ∧
    surface_resources (wl_compositor_create_surface priv id) = [s.resource] := by
  have h : wl_compositor_create_surface priv id = priv := by
    simp only [wl_compositor_create_surface, hs]
  rw [h]
  exact ⟨rfl, hs, by simp only [surface_resources, hs]⟩

/-- Witness of C16: with `sample_surface` (resource 3) active, create_surface(4)
changes nothing. -/
theorem C16_second_create_surface_ignored_witness :
    wl_compositor_create_surface sample_compositor 4 = sample_compositor ∧
    (wl_compositor_create_surface sample_compositor 4).surface = some sample_surface ∧
    surface_resources (wl_compositor_create_surface sample_compositor 4) =
      [sample_surface.resource] :=
  C16_second_create_surface_ignored sample_compositor sample_surface 4 rfl

/-- C16 as stated fails: with `sample_surface` (resource 3) active,
create_surface(4) leaves no live surface resource with the identity 4. -/
theorem C16_counterexample :
    sample_compositor.surface.isSome = true ∧
    surface_resources (wl_compositor_create_surface sample_compositor 4) = [3] ∧
    4 ∉ surface_resources (wl_compositor_create_surface sample_compositor 4) := by
  refine ⟨rfl, rfl, ?_⟩
  decide

/-! ### C17: destroying the active surface -/

/-- C17: for every state, after the destructor of the active surface there is
no active surface; a repaint then sends no event and changes nothing; and a
following create_surface(id) makes a new active surface with the resource `id`
and the default state: current scale 1, pending scale unset, no buffer, no
input region, empty callback queues, empty damage. -/
theorem C17_destroy_clears_active_surface (priv : WakefieldCompositorPrivate)
    (tv : timeval) (id : Nat) :
    (wl_surface_destructor priv).surface = none ∧
    wakefield_compositor_draw (wl_surface_destructor priv) tv =
      .ok (wl_surface_destructor priv, []) ∧
    (∃ s, (wl_compositor_create_surface (wl_surface_destructor priv) id).surface = some s ∧
      s.resource = id ∧
      s.current.scale = 1 ∧ s.current.buffer = none ∧ s.current.input_region = none ∧
      s.current.frame_callbacks = [] ∧
      s.pending.scale = 0 ∧ s.pending.buffer = none ∧ s.pending.input_region = none ∧
      s.pending.frame_callbacks = [] ∧
      (∀ px py : Int, s.damage.contains px py = false)) ∧
    (wl_compositor_create_surface (wl_surface_destructor priv) id).display = priv.display ∧
    (wl_compositor_create_surface (wl_surface_destructor priv) id).seat = priv.seat :=
  ⟨rfl, rfl, ⟨_, rfl, rfl, rfl, rfl, rfl, rfl, rfl, rfl, rfl, rfl, fun _ _ => rfl⟩, rfl, rfl⟩

/-! ### C19 and C20: the region accumulator -/

/-- C19: for every rectangle (x, y, width, height), a newly created region to
which add and then subtract of that rectangle are applied holds no pixel: it is
the empty region. -/
theorem C19_add_then_subtract_is_empty (id : Nat) (x y width height : Int) :
    (∀ px py : Int,
      (wl_region_subtract (wl_region_add (wl_compositor_create_region id) x y width height)
        x y width height).region.contains px py = false) ∧
    (wl_region_subtract (wl_region_add (wl_compositor_create_region id) x y width height)
      x y width height).region = cairo_region_create := by
  have h : ∀ px py : Int,
      (wl_region_subtract (wl_region_add (wl_compositor_create_region id) x y width height)
        x y width height).region.contains px py = false := by
    intro px py
    simp [wl_region_subtract, wl_region_add, wl_compositor_create_region,
      cairo_region_subtract_rectangle, cairo_region_union_rectangle, cairo_region_create]
  refine ⟨h, ?_⟩
  ext px py
  rw [h]
  rfl

/-- C20: for every region and all rectangles R1 and R2, add(R1) then add(R2)
gives a region with the same pixels as add(R2) then add(R1). -/
theorem C20_add_commutes (region : WakefieldRegion) (x1 y1 w1 h1 x2 y2 w2 h2 : Int) :
    (∀ px py : Int,
      (wl_region_add (wl_region_add region x1 y1 w1 h1) x2 y2 w2 h2).region.contains px py =
      (wl_region_add (wl_region_add region x2 y2 w2 h2) x1 y1 w1 h1).region.contains px py) ∧
    (wl_region_add (wl_region_add region x1 y1 w1 h1) x2 y2 w2 h2).region =
      (wl_region_add (wl_region_add region x2 y2 w2 h2) x1 y1 w1 h1).region := by
  have h : ∀ px py : Int,
      (wl_region_add (wl_region_add region x1 y1 w1 h1) x2 y2 w2 h2).region.contains px py =
      (wl_region_add (wl_region_add region x2 y2 w2 h2) x1 y1 w1 h1).region.contains px py := by
    intro px py
    simp only [wl_region_add, cairo_region_union_rectangle]
    rw [Bool.or_assoc, Bool.or_assoc,
      Bool.or_comm ((cairo_rectangle_int_t.mk x1 y1 w1 h1).contains px py)]
  exact ⟨h, cairo_region_t.ext (funext fun px => funext fun py => h px py)⟩

/-! ### C18: the set of pointer resources -/

theorem pointer_requests_cons (priv : WakefieldCompositorPrivate) (r : PointerRequest)
    (rest : List PointerRequest) :
    pointer_requests priv (r :: rest) = pointer_requests (pointer_request priv r) rest := rfl

theorem live_pointers_cons (live : Nat → Bool) (r : PointerRequest)
    (rest : List PointerRequest) :
    live_pointers live (r :: rest) = live_pointers (PointerRequest.live_after live r) rest := rfl

theorem pointer_list_after_requests (reqs : List PointerRequest) :
    ∀ (priv : WakefieldCompositorPrivate) (live : Nat → Bool),
      priv.seat.pointer.resource_list.Nodup →
      (∀ p, p ∈ priv.seat.pointer.resource_list ↔ live p = true) →
      fresh_ids live reqs = true →
      (pointer_requests priv reqs).seat.pointer.resource_list.Nodup ∧
      (∀ p, p ∈ (pointer_requests priv reqs).seat.pointer.resource_list ↔
        live_pointers live reqs p = true) ∧
      (pointer_requests priv reqs).surface = priv.surface ∧
      (pointer_requests priv reqs).display = priv.display := by
  induction reqs with
  | nil => intro priv live hnd hmem _; exact ⟨hnd, hmem, rfl, rfl⟩
  | cons r rest ih =>
    intro priv live hnd hmem hfresh
    rw [pointer_requests_cons, live_pointers_cons]
    cases r with
    | get_pointer id =>
      simp only [fresh_ids, Bool.and_eq_true, Bool.not_eq_true'] at hfresh
      have hnot : id ∉ priv.seat.pointer.resource_list := by
        intro hin
        have := (hmem id).mp hin
        rw [hfresh.1] at this
        exact absurd this (by decide)
      have hstep := ih (pointer_request priv (PointerRequest.get_pointer id))
        (PointerRequest.live_after live (PointerRequest.get_pointer id))
        (List.nodup_cons.mpr ⟨hnot, hnd⟩)
        (by
          intro p
          show p ∈ id :: priv.seat.pointer.resource_list ↔ _
          simp [PointerRequest.live_after, hmem p])
        hfresh.2
      exact ⟨hstep.1, hstep.2.1, hstep.2.2.1, hstep.2.2.2⟩
    | destroy id =>
      simp only [fresh_ids] at hfresh
      have hstep := ih (pointer_request priv (PointerRequest.destroy id))
        (PointerRequest.live_after live (PointerRequest.destroy id))
        (List.Nodup.erase id hnd)
        (by
          intro p
          show p ∈ priv.seat.pointer.resource_list.erase id ↔ _
          rw [List.Nodup.mem_erase_iff hnd]
          simp [PointerRequest.live_after, hmem p])
        hfresh
      exact ⟨hstep.1, hstep.2.1, hstep.2.2.1, hstep.2.2.2⟩

theorem pointer_message_count_map (p : Nat) (pointers : List Nat) (f : Nat → wl_event)
    (hf : ∀ q, event_pointer (f q) = some q) :
    pointer_message_count p (pointers.map f) = pointers.count p := by
  induction pointers with
  | nil => rfl
  | cons q rest ih =>
    simp only [pointer_message_count, List.map_cons, List.filter_cons, hf q,
      Option.some.injEq] at ih ⊢
    by_cases h : q = p
    · subst h; simp [ih]
    · have h2 : ¬ (q == p) = true := by simpa using h
      simp [h, ih, List.count_cons, h2]

theorem count_of_nodup (p : Nat) (pointers : List Nat) (hnd : pointers.Nodup) :
    pointers.count p = if p ∈ pointers then 1 else 0 := by
  by_cases h : p ∈ pointers
  · simp [h, List.count_eq_one_of_mem hnd h]
  · simp [h, List.count_eq_zero_of_not_mem h]

theorem enter_with_surface (priv : WakefieldCompositorPrivate) (s : WakefieldSurface)
    (event : GdkEventCrossing) (hs : priv.surface = some s) :
    wakefield_compositor_enter_notify_event priv event =
      .ok ({ priv with display := (wl_display_next_serial priv.display).1 },
        priv.seat.pointer.resource_list.map (fun resource =>
          wl_event.pointer_enter resource (wl_display_next_serial priv.display).2 s.resource
            (wl_fixed_from_int event.x) (wl_fixed_from_int event.y))) := by
  cases hl : priv.seat.pointer.resource_list with
  | nil => simp only [wakefield_compositor_enter_notify_event, hl, List.map_nil]
  | cons r rs => simp only [wakefield_compositor_enter_notify_event, hl, hs]

theorem leave_with_surface (priv : WakefieldCompositorPrivate) (s : WakefieldSurface)
    (event : GdkEventCrossing) (hs : priv.surface = some s) :
    wakefield_compositor_leave_notify_event priv event =
      .ok ({ priv with display := (wl_display_next_serial priv.display).1 },
        priv.seat.pointer.resource_list.map (fun resource =>
          wl_event.pointer_leave resource (wl_display_next_serial priv.display).2
            s.resource)) := by
  cases hl : priv.seat.pointer.resource_list with
  | nil => simp only [wakefield_compositor_leave_notify_event, hl, List.map_nil]
  | cons r rs => simp only [wakefield_compositor_leave_notify_event, hl, hs]

/-- C18, the code where the claim holds and at the failing input. get_pointer
puts the new pointer at the head of the seat's list; destroying a pointer
takes exactly that pointer out, the others keeping their order; after any
sequence of get_pointer and destroy requests with fresh ids the list holds
exactly the live pointers, each once, and a motion or button broadcast, and an
enter or leave broadcast when there is an active surface, sends each live
pointer exactly one message and a destroyed pointer none. Without an active
surface, an enter or leave broadcast after get_pointer(20) reads
`priv->surface->resource` through the null pointer and no pointer gets a
message. -/
theorem C18_pointer_set_is_live_set :
    (∀ (priv : WakefieldCompositorPrivate) (id : Nat),
      (seat_get_pointer priv id).seat.pointer.resource_list =
        id :: priv.seat.pointer.resource_list) ∧
    (∀ (priv : WakefieldCompositorPrivate) (id : Nat),
      priv.seat.pointer.resource_list.Nodup →
      (pointer_release priv id).seat.pointer.resource_list =
        priv.seat.pointer.resource_list.filter (fun q => q != id)) ∧
    (∀ (priv : WakefieldCompositorPrivate) (live : Nat → Bool) (reqs : List PointerRequest),
      priv.seat.pointer.resource_list.Nodup →
      (∀ p, p ∈ priv.seat.pointer.resource_list ↔ live p = true) →
      fresh_ids live reqs = true →
      (pointer_requests priv reqs).seat.pointer.resource_list.Nodup ∧
      (∀ p, p ∈ (pointer_requests priv reqs).seat.pointer.resource_list ↔
        live_pointers live reqs p = true) ∧
      (∀ (p : Nat) (event : GdkEventMotion),
        pointer_message_count p
          (wakefield_compositor_motion_notify_event (pointer_requests priv reqs) event).2 =
          if live_pointers live reqs p = true then 1 else 0) ∧
      (∀ (p : Nat) (event : GdkEventButton),
        pointer_message_count p (broadcast_button (pointer_requests priv reqs) event).2 =
          if live_pointers live reqs p = true then 1 else 0) ∧
      (∀ (s : WakefieldSurface), priv.surface = some s →
        ∀ (p : Nat) (event : GdkEventCrossing),
          (∃ r, wakefield_compositor_enter_notify_event (pointer_requests priv reqs) event =
              .ok r ∧
            pointer_message_count p r.2 = if live_pointers live reqs p = true then 1 else 0) ∧
          (∃ r, wakefield_compositor_leave_notify_event (pointer_requests priv reqs) event =
              .ok r ∧
            pointer_message_count p r.2 =
              if live_pointers live reqs p = true then 1 else 0))) ∧
    wakefield_compositor_enter_notify_event
      (pointer_requests wakefield_compositor_init [PointerRequest.get_pointer 20])
      { x := 1, y := 2 } = .error Abort.null_surface ∧
    wakefield_compositor_leave_notify_event
      (pointer_requests wakefield_compositor_init [PointerRequest.get_pointer 20])
      { x := 1, y := 2 } = .error Abort.null_surface := by
  refine ⟨fun _ _ => rfl, ?_, ?_, rfl, rfl⟩
  · intro priv id hnd
    show priv.seat.pointer.resource_list.erase id = _
    exact List.Nodup.erase_eq_filter hnd id
  · intro priv live reqs hnd hmem hfresh
    obtain ⟨hnd1, hmem1, hsurf, _⟩ := pointer_list_after_requests reqs priv live hnd hmem hfresh
    have hcount : ∀ p, (pointer_requests priv reqs).seat.pointer.resource_list.count p =
        if live_pointers live reqs p = true then 1 else 0 := by
      intro p
      rw [count_of_nodup p _ hnd1]
      by_cases h : live_pointers live reqs p = true
      · simp [h, (hmem1 p).mpr h]
      · have hnot : p ∉ (pointer_requests priv reqs).seat.pointer.resource_list :=
          fun hin => h ((hmem1 p).mp hin)
        simp [h, hnot]
    refine ⟨hnd1, hmem1, ?_, ?_, ?_⟩
    · intro p event
      rw [← hcount p]
      exact pointer_message_count_map p _ _ (fun _ => rfl)
    · intro p event
      rw [← hcount p]
      exact pointer_message_count_map p _ _ (fun _ => rfl)
    · intro s hs p event
      have hs1 : (pointer_requests priv reqs).surface = some s := hsurf.trans hs
      refine ⟨⟨_, enter_with_surface _ s event hs1, ?_⟩,
        ⟨_, leave_with_surface _ s event hs1, ?_⟩⟩
      · rw [← hcount p]
        exact pointer_message_count_map p _ _ (fun _ => rfl)
      · rw [← hcount p]
        exact pointer_message_count_map p _ _ (fun _ => rfl)

/-- Witness of C18: from the compositor with pointers 21 and 20 and an active
surface, get_pointer(22), destroy(21), then a button press: the live pointer 22
gets one message, the destroyed pointer 21 none. -/
theorem C18_pointer_set_is_live_set_witness :
    pointer_message_count 22
      (broadcast_button
        (pointer_requests sample_compositor
          [PointerRequest.get_pointer 22, PointerRequest.destroy 21]) sample_press).2 = 1 ∧
    pointer_message_count 21
      (broadcast_button
        (pointer_requests sample_compositor
          [PointerRequest.get_pointer 22, PointerRequest.destroy 21]) sample_press).2 = 0 :=
  ⟨(((C18_pointer_set_is_live_set.2.2.1 sample_compositor
        (fun p => decide (p = 21) || decide (p = 20))
        [PointerRequest.get_pointer 22, PointerRequest.destroy 21]
        (by decide) (by intro p; simp [sample_compositor]) (by decide)).2.2.2.1 22
        sample_press).trans (by decide)),
   (((C18_pointer_set_is_live_set.2.2.1 sample_compositor
        (fun p => decide (p = 21) || decide (p = 20))
        [PointerRequest.get_pointer 22, PointerRequest.destroy 21]
        (by decide) (by intro p; simp [sample_compositor]) (by decide)).2.2.2.1 21
        sample_press).trans (by decide))⟩

/-! ### C21: the timestamp of the done events -/

theorem get_time_eq (tv : timeval) :
    (get_time tv : Int) = tv.millis % 4294967296 := by
  unfold get_time timeval.millis
  exact Int.toNat_of_nonneg (Int.emod_nonneg _ (by decide))

theorem millis_mono (a b : timeval) (ha : a.well_formed) (hb : b.well_formed)
    (h : a.not_later b) : a.millis ≤ b.millis := by
  unfold timeval.millis
  obtain ⟨ha0, ha1⟩ := ha
  obtain ⟨hb0, hb1⟩ := hb
  have hqa0 : 0 ≤ Int.tdiv a.tv_usec 1000 := Int.tdiv_nonneg ha0 (by decide)
  have hqb0 : 0 ≤ Int.tdiv b.tv_usec 1000 := Int.tdiv_nonneg hb0 (by decide)
  have hea : Int.tdiv a.tv_usec 1000 = a.tv_usec / 1000 :=
    Int.tdiv_eq_ediv ha0 (by decide)
  have heb : Int.tdiv b.tv_usec 1000 = b.tv_usec / 1000 :=
    Int.tdiv_eq_ediv hb0 (by decide)
  rcases h with hlt | ⟨heq, hle⟩
  · rw [hea, heb]; omega
  · rw [hea, heb, heq]; omega

theorem done_times_draw (b : wl_buffer) (time : Nat) (callbacks : List Nat) :
    done_times (wl_event.buffer_release b ::
      callbacks.map (fun cr => wl_event.callback_done cr time)) =
      callbacks.map (fun _ => time) := by
  induction callbacks with
  | nil => rfl
  | cons c rest ih =>
    simp only [done_times, List.map_cons, List.filterMap_cons] at ih ⊢
    rw [ih]

/-- C21, as amended: the timestamp of the done events is the millisecond count
`tv_sec * 1000 + tv_usec / 1000` of the clock reading modulo 2^32. For any two
clock readings of which the first is not later than the second and whose
millisecond counts lie in the same window of 2^32 milliseconds (the 32-bit
value does not wrap between them), the timestamp of the second is greater than
or equal to that of the first, and a paint at the second reading that draws the
buffer sends all its done events with that timestamp. -/
theorem C21_timestamp_monotonic_until_wrap (a b : timeval)
    (ha : a.well_formed) (hb : b.well_formed) (h : a.not_later b)
    (hwin : a.millis / 4294967296 = b.millis / 4294967296) :
    get_time a ≤ get_time b ∧
    (get_time b : Int) = b.millis % 4294967296 ∧
    (∀ (s : WakefieldSurface) (buf : wl_buffer) (shm : wl_shm_buffer),
      s.current.buffer = some buf → wl_shm_buffer_get (some buf) = some shm →
      supported_format shm.format →
      ∃ s1 events, draw_surface s b = .ok (s1, events) ∧
        ∀ t ∈ done_times events, t = get_time b ∧ get_time a ≤ t) := by
  have hmono := millis_mono a b ha hb h
  have hga := get_time_eq a
  have hgb := get_time_eq b
  have hle : get_time a ≤ get_time b := by
    have : (get_time a : Int) ≤ (get_time b : Int) := by
      rw [hga, hgb]; omega
    exact_mod_cast this
  refine ⟨hle, hgb, ?_⟩
  intro s buf shm hbuf hshm hfmt
  refine ⟨_, _, draw_surface_ok s buf shm b hbuf hshm hfmt, ?_⟩
  intro t ht
  rw [done_times_draw, List.mem_map] at ht
  obtain ⟨_, _, rfl⟩ := ht
  exact ⟨rfl, hle⟩

/-- Witness of C21: the readings 5 s and 6.5 s give the timestamps 5000 and
6500. -/
theorem C21_timestamp_monotonic_until_wrap_witness :
    get_time { tv_sec := 5, tv_usec := 0 } ≤ get_time { tv_sec := 6, tv_usec := 500000 } :=
  (C21_timestamp_monotonic_until_wrap { tv_sec := 5, tv_usec := 0 }
    { tv_sec := 6, tv_usec := 500000 }
    (by unfold timeval.well_formed; decide) (by unfold timeval.well_formed; decide)
    (Or.inl (by decide)) (by decide)).1

/-- C21 as stated fails: the reading 1717986918 s 399000 us (in June 2024) is
earlier than the reading 1717986918 s 400000 us, yet the first gives the
timestamp 4294967295 and the second, one millisecond later, the timestamp 0; a
paint at the second reading sends its done event with the timestamp 0. -/
theorem C21_counterexample :
    timeval.not_later { tv_sec := 1717986918, tv_usec := 399000 }
      { tv_sec := 1717986918, tv_usec := 400000 } ∧
    timeval.well_formed { tv_sec := 1717986918, tv_usec := 399000 } ∧
    timeval.well_formed { tv_sec := 1717986918, tv_usec := 400000 } ∧
    get_time { tv_sec := 1717986918, tv_usec := 399000 } = 4294967295 ∧
    get_time { tv_sec := 1717986918, tv_usec := 400000 } = 0 ∧
    (match draw_surface (wl_surface_commit (wl_surface_frame sample_surface 11)).1
        { tv_sec := 1717986918, tv_usec := 400000 } with
     | .ok (_, events) => done_times events
     | .error _ => []) = [0] ∧
    ¬ ((4294967295 : Nat) ≤ 0) := by
  refine ⟨Or.inr ⟨rfl, by decide⟩, ?_, ?_, ?_, ?_, ?_, by decide⟩
  · unfold timeval.well_formed; decide
  · unfold timeval.well_formed; decide
  · rfl
  · rfl
  · rfl

/-! ### C22: the current scale stays positive -/

theorem surface_interface_scale (s : WakefieldSurface) (r : SurfaceRequest)
    (h : 1 ≤ s.current.scale) : 1 ≤ (surface_interface s r).current.scale := by
  cases r with
  | commit =>
    show 1 ≤ (wl_surface_commit s).1.current.scale
    rw [commit_eq]
    show 1 ≤ (if s.pending.scale > 0 then s.pending.scale else s.current.scale)
    split <;> omega
  | attach b dx dy => exact h
  | damage x y w ht => exact h
  | frame c => exact h
  | set_opaque_region r => exact h
  | set_input_region r => cases r <;> exact h
  | set_buffer_transform t => exact h
  | set_buffer_scale k => exact h

theorem surface_requests_scale (reqs : List SurfaceRequest) :
    ∀ s : WakefieldSurface, 1 ≤ s.current.scale →
      1 ≤ (surface_requests s reqs).current.scale := by
  induction reqs with
  | nil => intro s h; exact h
  | cons r rest ih =>
    intro s h
    rw [surface_requests_cons]
    exact ih _ (surface_interface_scale s r h)

theorem draw_surface_keeps (s s1 : WakefieldSurface) (tv : timeval) (events : List wl_event)
    (h : draw_surface s tv = .ok (s1, events)) :
    s1 = { s with current := { s.current with frame_callbacks := [] } } := by
  unfold draw_surface at h
  cases hb : s.current.buffer with
  | none => rw [hb] at h; simp [wl_shm_buffer_get] at h
  | some b =>
    rw [hb] at h
    cases hshm : b.shm with
    | none => simp [wl_shm_buffer_get, hshm] at h
    | some shm =>
      simp only [wl_shm_buffer_get, hshm] at h
      cases hf : cairo_format_for_wl_shm_format shm.format with
      | error e => simp [hf] at h
      | ok f =>
        simp only [hf, Except.ok.injEq, Prod.mk.injEq] at h
        exact h.1.symm

theorem compositor_step_scale (priv priv1 : WakefieldCompositorPrivate) (s : WakefieldSurface)
    (i : Input) (events : List wl_event)
    (hs : priv.surface = some s) (hscale : 1 ≤ s.current.scale)
    (hstep : compositor_step priv i = .ok (priv1, events)) :
    ∃ s1, priv1.surface = some s1 ∧ 1 ≤ s1.current.scale := by
  cases i with
  | request r =>
    simp only [compositor_step, client_request, hs, Except.ok.injEq, Prod.mk.injEq] at hstep
    rw [← hstep.1]
    exact ⟨_, rfl, surface_interface_scale s r hscale⟩
  | draw tv =>
    simp only [compositor_step, wakefield_compositor_draw, hs] at hstep
    cases hd : draw_surface s tv with
    | error e => simp [hd] at hstep
    | ok res =>
      obtain ⟨s1, ev⟩ := res
      simp only [hd, Except.ok.injEq, Prod.mk.injEq] at hstep
      rw [← hstep.1]
      refine ⟨s1, rfl, ?_⟩
      rw [draw_surface_keeps s s1 tv ev hd]
      exact hscale

theorem compositor_run_scale (inputs : List Input) :
    ∀ (priv priv1 : WakefieldCompositorPrivate) (s : WakefieldSurface)
      (events : List wl_event),
      priv.surface = some s → 1 ≤ s.current.scale →
      compositor_run priv inputs = .ok (priv1, events) →
      ∃ s1, priv1.surface = some s1 ∧ 1 ≤ s1.current.scale := by
  induction inputs with
  | nil =>
    intro priv priv1 s events hs hscale hrun
    simp only [compositor_run, Except.ok.injEq, Prod.mk.injEq] at hrun
    rw [← hrun.1]
    exact ⟨s, hs, hscale⟩
  | cons i rest ih =>
    intro priv priv1 s events hs hscale hrun
    cases hstep : compositor_step priv i with
    | error e => simp [compositor_run, hstep] at hrun
    | ok res =>
      obtain ⟨pa, ea⟩ := res
      obtain ⟨sa, hsa, hscalea⟩ := compositor_step_scale priv pa s i ea hs hscale hstep
      rw [compositor_run_cons_ok priv pa i rest ea hstep] at hrun
      cases hrest : compositor_run pa rest with
      | error e => simp [hrest] at hrun
      | ok res2 =>
        obtain ⟨pb, eb⟩ := res2
        simp only [hrest, Except.ok.injEq, Prod.mk.injEq] at hrun
        rw [← hrun.1]
        exact ih pa pb sa eb hsa hscalea hrest

/-- C22: the current scale of a surface is always a positive integer. Right
after create_surface it is 1; after any sequence of requests to the surface
(attach, damage, frame, set_input_region, set_buffer_scale with any integer,
commit, and the two requests without effect) it is at least 1; and in every
state reached from the creation by requests and paints it is at least 1. -/
theorem C22_current_scale_positive (priv priv1 : WakefieldCompositorPrivate) (id : Nat)
    (inputs : List Input) (events : List wl_event)
    (hrun : compositor_run (wl_compositor_create_surface { priv with surface := none } id)
      inputs = .ok (priv1, events)) :
    (∃ s0, (wl_compositor_create_surface { priv with surface := none } id).surface = some s0 ∧
      s0.current.scale = 1 ∧
      ∀ reqs : List SurfaceRequest, 1 ≤ (surface_requests s0 reqs).current.scale) ∧
    (∃ s1, priv1.surface = some s1 ∧ 1 ≤ s1.current.scale) :=
  ⟨⟨_, rfl, rfl, fun reqs => surface_requests_scale reqs _ (le_refl (1 : Int))⟩,
   compositor_run_scale inputs _ priv1 _ events rfl (le_refl (1 : Int)) hrun⟩

/-- Witness of C22: create_surface(3), then set_buffer_scale(0), attach, commit,
a paint, set_buffer_scale(-3), commit, set_buffer_scale(2), commit: the run
ends in a state whose current scale is at least 1. -/
theorem C22_current_scale_positive_witness :
    ∃ priv1 events,
      compositor_run
        (wl_compositor_create_surface { wakefield_compositor_init with surface := none } 3)
        [Input.request (SurfaceRequest.set_buffer_scale 0),
         Input.request (SurfaceRequest.attach (some sample_buffer) 0 0),
         Input.request SurfaceRequest.commit,
         Input.draw { tv_sec := 5, tv_usec := 0 },
         Input.request (SurfaceRequest.set_buffer_scale (-3)),
         Input.request SurfaceRequest.commit,
         Input.request (SurfaceRequest.set_buffer_scale 2),
         Input.request SurfaceRequest.commit] = .ok (priv1, events) ∧
      ∃ s1, priv1.surface = some s1 ∧ 1 ≤ s1.current.scale := by
  obtain ⟨priv1, events, hrun⟩ : ∃ priv1 events,
      compositor_run
        (wl_compositor_create_surface { wakefield_compositor_init with surface := none } 3)
        [Input.request (SurfaceRequest.set_buffer_scale 0),
         Input.request (SurfaceRequest.attach (some sample_buffer) 0 0),
         Input.request SurfaceRequest.commit,
         Input.draw { tv_sec := 5, tv_usec := 0 },
         Input.request (SurfaceRequest.set_buffer_scale (-3)),
         Input.request SurfaceRequest.commit,
         Input.request (SurfaceRequest.set_buffer_scale 2),
         Input.request SurfaceRequest.commit] = .ok (priv1, events) := ⟨_, _, rfl⟩
  exact ⟨priv1, events, hrun,
    (C22_current_scale_positive wakefield_compositor_init priv1 3 _ events hrun).2⟩

/-! ### C23: a paint keeps the current buffer -/

/-- C23: a paint does not consume the current buffer. For every active surface
with a non-null current buffer (one a client can have made: see
`receivable_buffer`), a paint leaves `current.buffer`, `current.scale`, the
whole pending state and the damage region unchanged (only
`current.frame_callbacks` is emptied), so a second paint with no commit in
between also succeeds, and each of the two sends a release event for that same
buffer: the first followed by the done events, the second alone. -/
theorem C23_paint_keeps_current_buffer (priv : WakefieldCompositorPrivate)
    (s : WakefieldSurface) (b : wl_buffer) (tv1 tv2 : timeval)
    (hs : priv.surface = some s) (hb : s.current.buffer = some b)
    (hrecv : receivable_buffer b) :
    ∃ priv1 s1 events1,
      wakefield_compositor_draw priv tv1 = .ok (priv1, events1) ∧
      priv1.surface = some s1 ∧
      s1.current.buffer = s.current.buffer ∧ s1.current.scale = s.current.scale ∧
      s1.current.input_region = s.current.input_region ∧
      s1.pending = s.pending ∧ s1.damage = s.damage ∧ s1.resource = s.resource ∧
      priv1.display = priv.display ∧ priv1.seat = priv.seat ∧
      events1 = wl_event.buffer_release b ::
        s.current.frame_callbacks.map (fun cr => wl_event.callback_done cr (get_time tv1)) ∧
      wakefield_compositor_draw priv1 tv2 = .ok (priv1, [wl_event.buffer_release b]) := by
  obtain ⟨shm, hshm, hfmt⟩ := hrecv
  have hshm1 : b.shm = some shm := hshm
  refine ⟨_, { s with current := { s.current with frame_callbacks := [] } }, _,
    compositor_draw_ok priv s b shm tv1 hs hb hshm1 hfmt, rfl, rfl, rfl, rfl, rfl, rfl, rfl,
    rfl, rfl, rfl, ?_⟩
  exact compositor_draw_ok
    { priv with surface := some { s with current := { s.current with frame_callbacks := [] } } }
    { s with current := { s.current with frame_callbacks := [] } } b shm tv2 rfl hb hshm1 hfmt

/-- Witness of C23: two paints of `sample_surface` with callback 11 queued: the
first sends the release of `sample_buffer` and the done event, the second the
release of `sample_buffer` again. -/
theorem C23_paint_keeps_current_buffer_witness :
    ∃ priv1 s1 events1,
      wakefield_compositor_draw
        { wakefield_compositor_init with
          surface := some (wl_surface_commit (wl_surface_frame sample_surface 11)).1 }
        { tv_sec := 5, tv_usec := 0 } = .ok (priv1, events1) ∧
      priv1.surface = some s1 ∧
      s1.current.buffer = some sample_buffer ∧
      events1 = [wl_event.buffer_release sample_buffer, wl_event.callback_done 11 5000] ∧
      wakefield_compositor_draw priv1 { tv_sec := 6, tv_usec := 0 } =
        .ok (priv1, [wl_event.buffer_release sample_buffer]) :=
  match C23_paint_keeps_current_buffer
      { wakefield_compositor_init with
        surface := some (wl_surface_commit (wl_surface_frame sample_surface 11)).1 }
      (wl_surface_commit (wl_surface_frame sample_surface 11)).1 sample_buffer
      { tv_sec := 5, tv_usec := 0 } { tv_sec := 6, tv_usec := 0 } rfl rfl
      ⟨{ format := WL_SHM_FORMAT_ARGB8888 }, rfl, Or.inl rfl⟩ with
  | ⟨priv1, s1, events1, h1, h2, h3, _, _, _, _, _, _, _, h4, h5⟩ =>
    ⟨priv1, s1, events1, h1, h2, h3, h4, h5⟩

end Wakefield
